import Mathlib

/-!
Verification development for the bahntracker train discovery/index subsystem.

The JavaScript/TypeScript sources are shallowly embedded: strings are Lean
`String`s (lists of unicode scalar values), the handful of string operations
the code uses (`toUpperCase`, `trim`, `split(/\s+/)`, `replace(/\D/g,'')`,
`replace(/\s/g,'')`, `includes`, `startsWith`) are modelled character by
character below, JS `Map`s are association lists in insertion order, and
network calls are parameters (`Except`-valued environments).  `toUpperCase`
is modelled on the basic-latin range (the only case-sensitive data the
system manipulates — train type codes and line labels — is ASCII).
-/

set_option autoImplicit false

namespace Bahn

/-! ## Character-level models of the JS string primitives -/

/-- The character class of the JS regex `\d`. -/
def isDigitC (c : Char) : Bool :=
  48 ≤ c.toNat && c.toNat ≤ 57

/-- The character class of the JS regex `\s` (ECMA-262 WhiteSpace ∪ LineTerminator). -/
def isWsC (c : Char) : Bool :=
  c.toNat == 9 || c.toNat == 10 || c.toNat == 11 || c.toNat == 12 || c.toNat == 13 ||
  c.toNat == 32 || c.toNat == 160 || c.toNat == 5760 ||
  (8192 ≤ c.toNat && c.toNat ≤ 8202) ||
  c.toNat == 8232 || c.toNat == 8233 || c.toNat == 8239 || c.toNat == 8287 ||
  c.toNat == 12288 || c.toNat == 65279

/-- JS `String.prototype.toUpperCase`, restricted to basic latin: core `Char.toUpper`. -/
def upChar (c : Char) : Char := Char.toUpper c

/-- JS `s.toUpperCase()`. -/
def jsUpper (s : String) : String := ⟨s.data.map upChar⟩

/-- JS `s.replace(/\D/g, '')`: keep only the digits. -/
def digitsOnly (s : String) : String := ⟨s.data.filter isDigitC⟩

/-- JS `s.replace(/\s/g, '')`: drop all whitespace. -/
def stripWs (s : String) : String := ⟨s.data.filter (fun c => !isWsC c)⟩

/-- JS `s.trim()`. -/
def jsTrim (s : String) : String :=
  ⟨((s.data.dropWhile isWsC).reverse.dropWhile isWsC).reverse⟩

/-- The JS regex test `/^\d+$/`: non-empty and all digits. -/
def allDigits (cs : List Char) : Bool := !cs.isEmpty && cs.all isDigitC

/-- JS `text.startsWith(pat)` (pattern first). -/
def startsWithL : List Char → List Char → Bool
  | [], _ => true
  | _ :: _, [] => false
  | p :: ps, c :: cs => p == c && startsWithL ps cs

/-- JS `text.includes(pat)` (pattern first). -/
def containsL (pat : List Char) : List Char → Bool
  | [] => pat.isEmpty
  | c :: cs => startsWithL pat (c :: cs) || containsL pat cs

/-- JS `s.split(/\s+/)`: segments between maximal whitespace runs, with an empty
leading (trailing) segment when the string starts (ends) with whitespace. -/
def wsSplit : List Char → List (List Char)
  | [] => [[]]
  | [c] => if isWsC c then [[], []] else [[c]]
  | c :: c2 :: cs =>
    if isWsC c then
      (if isWsC c2 then wsSplit (c2 :: cs) else [] :: wsSplit (c2 :: cs))
    else
      match wsSplit (c2 :: cs) with
      | t :: ts => (c :: t) :: ts
      | [] => [[c]]

/-- JS `s.split(sep)` for a single-character separator. -/
def charSplit (sep : Char) : List Char → List (List Char)
  | [] => [[]]
  | c :: cs =>
    let r := charSplit sep cs
    if c == sep then [] :: r
    else
      match r with
      | t :: ts => (c :: t) :: ts
      | [] => [[c]]

/-- Lexicographic (code-unit) strict order on character lists; the model of
JS `localeCompare` used here (it coincides with `localeCompare` on the
all-digit strings this code sorts). -/
def charListLt : List Char → List Char → Bool
  | [], [] => false
  | [], _ :: _ => true
  | _ :: _, [] => false
  | a :: as, b :: bs => a.toNat < b.toNat || (a == b && charListLt as bs)

/-- JS truthiness of a possibly-absent string (`null`/`undefined`/`""` are falsy). -/
def jsStrTruthy : Option String → Bool
  | none => false
  | some s => !(s == "")

/-- JS `a || b` on possibly-absent strings. -/
def jsOrStr (a b : Option String) : Option String :=
  if jsStrTruthy a then a else b

/-- JS `a || null` on a possibly-absent string (`""` collapses to `null`). -/
def jsOrNullStr (a : Option String) : Option String :=
  if jsStrTruthy a then a else none

/-- JS `a || ''` on a possibly-absent string. -/
def jsOrEmpty (a : Option String) : String :=
  (a.getD "")

/-- JS template-literal coercion of a possibly-null string (null renders as "null"). -/
def jsTemplateStr : Option String → String
  | some s => s
  | none => "null"

/-! ## Identity Extractor (src/db-vendo-api/server.js, extractTrainNumber / extractTrainType) -/

/-- `extractTrainNumber(lineName)`: uppercase, split on `/\s+/`, return the first
token matching `/^\d+$/`, else null.  `none`/`""` input is rejected up front. -/
def extractTrainNumber : Option String → Option String
  | none => none
  | some s =>
    if s = "" then none
    else ((wsSplit (jsUpper s).data).find? allDigits).map (fun cs => (⟨cs⟩ : String))

/-- The fixed alternation of the regex `/^(ICE|IC|EC|RE|RB|IRE|TGV|RJ|NJ)/`, in order. -/
def typeCodes : List String :=
  ["ICE", "IC", "EC", "RE", "RB", "IRE", "TGV", "RJ", "NJ"]

/-- `extractTrainType(lineName)`: match the uppercased label against the fixed
alternation (first alternative wins, as in the regex). -/
def extractTrainType : Option String → Option String
  | none => none
  | some s =>
    if s = "" then none
    else typeCodes.find? (fun p => startsWithL p.data (jsUpper s).data)

/-- The whitespace-delimited tokens of a label: the maximal non-whitespace runs. -/
def wsTokens (s : String) : List String :=
  ((wsSplit s.data).filter (fun t => !t.isEmpty)).map (fun cs => (⟨cs⟩ : String))


/-! ## Data model of the train index (src/db-vendo-api/server.js) -/

structure Station where
  id : String
  name : String
deriving DecidableEq, Repr

/-- The station catalog (`majorStations` in server.js), transcribed in
catalog order; split into four sublists only to keep elaboration fast. -/
def majorStationsPart0 : List Station := [
  ⟨"8000105", "Frankfurt Hbf"⟩,
  ⟨"8000261", "München Hbf"⟩,
  ⟨"8011160", "Berlin Hbf"⟩,
  ⟨"8000207", "Köln Hbf"⟩,
  ⟨"8002549", "Hamburg Hbf"⟩,
  ⟨"8000152", "Hannover Hbf"⟩,
  ⟨"8000096", "Stuttgart Hbf"⟩,
  ⟨"8000085", "Düsseldorf Hbf"⟩,
  ⟨"8000284", "Nürnberg Hbf"⟩,
  ⟨"8010224", "Leipzig Hbf"⟩,
  ⟨"8000244", "Mannheim Hbf"⟩,
  ⟨"8010159", "Dresden Hbf"⟩,
  ⟨"8000080", "Dortmund Hbf"⟩,
  ⟨"8000098", "Essen Hbf"⟩,
  ⟨"8000191", "Karlsruhe Hbf"⟩,
  ⟨"8000050", "Bremen Hbf"⟩,
  ⟨"8003200", "Kassel-Wilhelmshöhe"⟩,
  ⟨"8000263", "Münster Hbf"⟩,
  ⟨"8010101", "Halle (Saale) Hbf"⟩,
  ⟨"8000128", "Göttingen"⟩,
  ⟨"8010205", "Erfurt Hbf"⟩,
  ⟨"8010050", "Berlin Südkreuz"⟩,
  ⟨"8000013", "Augsburg Hbf"⟩,
  ⟨"8000260", "Würzburg Hbf"⟩,
  ⟨"8000170", "Ulm Hbf"⟩,
  ⟨"8000010", "Aachen Hbf"⟩
]

def majorStationsPart1 : List Station := [
  ⟨"8010036", "Magdeburg Hbf"⟩,
  ⟨"8000774", "Freiburg Hbf"⟩,
  ⟨"8000049", "Braunschweig Hbf"⟩,
  ⟨"8000199", "Kiel Hbf"⟩,
  ⟨"8010304", "Rostock Hbf"⟩,
  ⟨"8010324", "Stralsund Hbf"⟩,
  ⟨"8000236", "Lübeck Hbf"⟩,
  ⟨"8000310", "Oldenburg Hbf"⟩,
  ⟨"8000294", "Osnabrück Hbf"⟩,
  ⟨"8002553", "Hamburg-Altona"⟩,
  ⟨"8006552", "Westerland (Sylt)"⟩,
  ⟨"8010055", "Binz"⟩,
  ⟨"8000026", "Basel Bad Bf"⟩,
  ⟨"8500010", "Basel SBB"⟩,
  ⟨"8100002", "Salzburg Hbf"⟩,
  ⟨"8100003", "Wien Hbf"⟩,
  ⟨"8100173", "Innsbruck Hbf"⟩,
  ⟨"8400058", "Amsterdam Centraal"⟩,
  ⟨"8400282", "Utrecht Centraal"⟩,
  ⟨"8800105", "Bruxelles-Midi"⟩,
  ⟨"8700011", "Paris Est"⟩,
  ⟨"8700023", "Strasbourg"⟩,
  ⟨"8501008", "Zürich HB"⟩,
  ⟨"8501120", "Bern"⟩,
  ⟨"8501026", "Interlaken Ost"⟩,
  ⟨"5100002", "Warszawa Centralna"⟩
]

def majorStationsPart2 : List Station := [
  ⟨"5400206", "Praha hl.n."⟩,
  ⟨"8000078", "Bielefeld Hbf"⟩,
  ⟨"8000036", "Bonn Hbf"⟩,
  ⟨"8000228", "Mainz Hbf"⟩,
  ⟨"8000377", "Wiesbaden Hbf"⟩,
  ⟨"8000320", "Regensburg Hbf"⟩,
  ⟨"8000108", "Passau Hbf"⟩,
  ⟨"8000115", "Fulda"⟩,
  ⟨"8000252", "Marburg (Lahn)"⟩,
  ⟨"8000286", "Offenburg"⟩,
  ⟨"8000156", "Heidelberg Hbf"⟩,
  ⟨"8000068", "Darmstadt Hbf"⟩,
  ⟨"8000355", "Trier Hbf"⟩,
  ⟨"8000189", "Kaiserslautern Hbf"⟩,
  ⟨"8000319", "Saarbrücken Hbf"⟩,
  ⟨"8000183", "Ingolstadt Hbf"⟩,
  ⟨"8000309", "Rosenheim"⟩,
  ⟨"8000262", "München Pasing"⟩,
  ⟨"8000124", "Garmisch-Partenkirchen"⟩,
  ⟨"8000221", "Lindau Hbf"⟩,
  ⟨"8000057", "Konstanz"⟩,
  ⟨"8000340", "Singen (Hohentwiel)"⟩,
  ⟨"8010085", "Cottbus Hbf"⟩,
  ⟨"8010366", "Wittenberge"⟩,
  ⟨"8010404", "Frankfurt (Oder)"⟩,
  ⟨"8010240", "Lutherstadt Wittenberg"⟩
]

def majorStationsPart3 : List Station := [
  ⟨"8012666", "Berlin Ostbahnhof"⟩,
  ⟨"8011102", "Berlin Gesundbrunnen"⟩,
  ⟨"8010089", "Dessau Hbf"⟩,
  ⟨"8010153", "Gera Hbf"⟩,
  ⟨"8010097", "Eisenach"⟩,
  ⟨"8010183", "Jena Paradies"⟩,
  ⟨"8010405", "Zwickau Hbf"⟩,
  ⟨"8010074", "Chemnitz Hbf"⟩,
  ⟨"8000142", "Hamm (Westf)"⟩,
  ⟨"8000149", "Hagen Hbf"⟩,
  ⟨"8000368", "Wuppertal Hbf"⟩,
  ⟨"8000119", "Gelsenkirchen Hbf"⟩,
  ⟨"8000041", "Bochum Hbf"⟩,
  ⟨"8000086", "Duisburg Hbf"⟩,
  ⟨"8000169", "Uelzen"⟩,
  ⟨"8000062", "Celle"⟩,
  ⟨"8000169", "Hildesheim Hbf"⟩,
  ⟨"8000250", "Lüneburg"⟩,
  ⟨"8000066", "Coburg"⟩,
  ⟨"8000025", "Bamberg"⟩,
  ⟨"8000032", "Bayreuth Hbf"⟩,
  ⟨"8000162", "Hof Hbf"⟩,
  ⟨"8000298", "Plauen (Vogtl) ob Bf"⟩
]

def majorStations : List Station :=
  majorStationsPart0 ++ majorStationsPart1 ++ majorStationsPart2 ++ majorStationsPart3

/-- One raw upstream schedule record, holding the fields server.js reads
(`line?.name`, `tripId`, `direction`, `when`, `plannedWhen`, `delay`). -/
structure RawRecord where
  lineName : Option String
  tripId : Option String
  direction : Option String
  whenAt : Option String
  plannedWhen : Option String
  delay : Option Int
deriving DecidableEq, Repr

/-- One index entry (the `trainData` object built by `addTrainToIndex`). -/
structure TrainData where
  tripId : String
  lineName : String
  trainNumber : String
  trainType : Option String
  station : String
  stationName : String
  direction : Option String
  time : Option String
  delay : Int
  source : String
deriving DecidableEq, Repr

/-- The in-memory index: a JS `Map`, modelled in insertion order. -/
abbrev Index := List (String × TrainData)

def idxHas (idx : Index) (k : String) : Bool := idx.any (fun p => p.1 == k)

def idxGet (idx : Index) (k : String) : Option TrainData :=
  (idx.find? (fun p => p.1 == k)).map (fun p => p.2)

/-- The lookup keys generated for one record: bare number, type+number,
type-space-number, uppercased label; `.filter(Boolean)` drops empty strings.
A `null` train type renders as the text "null" inside the JS template
literals, exactly as in the source. -/
def keysFor (trainNumber : String) (trainType : Option String) (lineName : String) : List String :=
  [trainNumber,
   jsTemplateStr trainType ++ trainNumber,
   jsTemplateStr trainType ++ " " ++ trainNumber,
   jsUpper lineName].filter (fun k => !(k == ""))

/-- The `trainData` object `addTrainToIndex` files under the generated keys. -/
def trainDataOf (trainInfo : RawRecord) (station : Station) (source lineName trainNumber : String)
    (trainType : Option String) : TrainData :=
  { tripId := jsOrEmpty trainInfo.tripId
    lineName := lineName
    trainNumber := trainNumber
    trainType := trainType
    station := station.id
    stationName := station.name
    direction := jsOrNullStr trainInfo.direction
    time := jsOrStr trainInfo.whenAt trainInfo.plannedWhen
    delay := trainInfo.delay.getD 0
    source := source }

/-- `addTrainToIndex(newIndex, trainInfo, station, source)`: skip records
without a truthy line name or tripId or an extractable number; otherwise file
the entry under each generated key that is not yet present. -/
def addTrainToIndex (newIndex : Index) (trainInfo : RawRecord) (station : Station)
    (source : String) : Index × Bool :=
  if !jsStrTruthy trainInfo.lineName || !jsStrTruthy trainInfo.tripId then (newIndex, false)
  else
    let lineName := jsOrEmpty trainInfo.lineName
    match extractTrainNumber (some lineName) with
    | none => (newIndex, false)
    | some trainNumber =>
      let trainType := extractTrainType (some lineName)
      let trainData : TrainData := trainDataOf trainInfo station source lineName trainNumber trainType
      (keysFor trainNumber trainType lineName).foldl
        (fun acc k => if idxHas acc.1 k then acc else (acc.1 ++ [(k, trainData)], true))
        (newIndex, false)

/-- The four six-hour windows of a rebuild (name, hour offset). -/
def timeWindows : List (String × Nat) :=
  [("now-6h", 0), ("6h-12h", 6), ("12h-18h", 12), ("18h-24h", 18)]

/-- The upstream capabilities one rebuild consumes: departures and arrivals
per (station, window), and the externally measured wall-clock duration. -/
structure FetchEnv where
  deps : String → Nat → Except String (List RawRecord)
  arrs : String → Nat → Except String (List RawRecord)
  durationS : Nat

/-- Fold one fetched list into the in-progress index; a failed fetch was
caught by the per-window catch and contributes nothing. -/
def processFetch (idx : Index) (res : Except String (List RawRecord)) (station : Station)
    (source : String) : Index × Nat :=
  match res with
  | .error _ => (idx, 0)
  | .ok list =>
    list.foldl (fun acc r =>
      let step := addTrainToIndex acc.1 r station source
      (step.1, if step.2 then acc.2 + 1 else acc.2)) (idx, 0)

/-- One station iteration of the rebuild loop: departures then arrivals for
each window, every fetch failure caught inside the loop. -/
def processStation (env : FetchEnv) (idx : Index) (station : Station) : Index × Nat × Nat :=
  timeWindows.foldl (fun acc w =>
    let d := processFetch acc.1 (env.deps station.id w.2) station ("dep-" ++ w.1)
    let a := processFetch d.1 (env.arrs station.id w.2) station ("arr-" ++ w.1)
    (a.1, acc.2.1 + d.2, acc.2.2 + a.2)) (idx, 0, 0)

/-- The complete index one rebuild accumulates over the whole catalog. -/
def fullIndex (env : FetchEnv) : Index :=
  majorStations.foldl (fun idx st => (processStation env idx st).1) []

inductive IndexStatus where
  | notInit
  | building
  | ready
deriving DecidableEq, Repr

structure ServerState where
  trainIndex : Index
  indexStatus : IndexStatus
  indexLastUpdated : Option Nat
deriving DecidableEq, Repr

structure BuildResult where
  entries : Nat
  uniqueTrains : Nat
  departures : Nat
  arrivals : Nat
  stations : Nat
  errors : Nat
  duration : Nat
deriving DecidableEq, Repr

structure BuildAcc where
  idx : Index
  deps : Nat
  arrs : Nat
  stationsProcessed : Nat
deriving DecidableEq, Repr

def buildStep (env : FetchEnv) (acc : BuildAcc) (stn : Station) : BuildAcc :=
  let r := processStation env acc.idx stn
  { idx := r.1
    deps := acc.deps + r.2.1
    arrs := acc.arrs + r.2.2
    stationsProcessed := acc.stationsProcessed + 1 }

/-- `buildTrainIndex()`: the globals are written only here, at entry
(`indexStatus = 'building'`, see `buildTrace`) and in the final publish; the
loop accumulates the local `newIndex`.  Every fallible operation inside the
loop is caught per window, so the per-station catch never fires
(`errors = 0`) and the loop always runs to completion. -/
def buildTrainIndex (env : FetchEnv) (now : Nat) : BuildResult × ServerState :=
  let acc := majorStations.foldl (buildStep env) ⟨[], 0, 0, 0⟩
  ({ entries := acc.idx.length
     uniqueTrains := ((acc.idx.map (fun p => p.2.trainNumber)).eraseDups).length
     departures := acc.deps
     arrivals := acc.arrs
     stations := acc.stationsProcessed
     errors := 0
     duration := env.durationS },
   { trainIndex := acc.idx, indexStatus := .ready, indexLastUpdated := some now })

/-- The observable global states during one rebuild attempt started from
`st`: after `indexStatus = 'building'` is set, after each station iteration
(the loop never writes the globals), and after the final publish. -/
def buildTrace (env : FetchEnv) (st : ServerState) (now : Nat) : List ServerState :=
  ({ st with indexStatus := .building } ::
    majorStations.map (fun _ => { st with indexStatus := .building }))
  ++ [(buildTrainIndex env now).2]

/-- `GET /trains/search` index lookup: three direct map hits (query,
query without whitespace, digit-only query), then the fuzzy scan returning
the first entry whose key contains the digit-only query or whose own
trainNumber equals it. -/
def searchLookup (idx : Index) (q : String) : Option TrainData :=
  let query := jsTrim (jsUpper q)
  let queryNoSpace := stripWs query
  let queryNumOnly := digitsOnly query
  match idxGet idx query <|> idxGet idx queryNoSpace <|> idxGet idx queryNumOnly with
  | some d => some d
  | none =>
    (idx.find? (fun p => containsL queryNumOnly.data p.1.data ||
      p.2.trainNumber == queryNumOnly)).map (fun p => p.2)

inductive SearchOutcome where
  | found (d : TrainData)
  | notFound (status : IndexStatus) (size : Nat)
deriving DecidableEq, Repr

/-- The found/not-found outcome of `GET /trains/search` (the not-found body
echoes the current index status and size). -/
def searchEndpointCore (st : ServerState) (q : String) : SearchOutcome :=
  match searchLookup st.trainIndex q with
  | some d => .found d
  | none => .notFound st.indexStatus st.trainIndex.length

inductive RebuildOutcome where
  | conflict (msg : String)
  | success (r : BuildResult) (lastUpdated : Option Nat)
deriving DecidableEq, Repr

/-- `POST /trains/rebuild-index`: 409 when already building, else run the
rebuild and return its summary. -/
def rebuildEndpoint (env : FetchEnv) (st : ServerState) (now : Nat) :
    RebuildOutcome × ServerState :=
  if st.indexStatus = .building then
    (.conflict "Index is already being built", st)
  else
    let r := buildTrainIndex env now
    (.success r.1 r.2.indexLastUpdated, r.2)

/-! ## Autocomplete (`GET /trains/autocomplete`) -/

structure AutoCandidate where
  trainNumber : String
  lineName : String
  trainType : Option String
  direction : Option String
  tripId : String
deriving DecidableEq, Repr

def toCandidate (d : TrainData) : AutoCandidate :=
  { trainNumber := d.trainNumber
    lineName := d.lineName
    trainType := d.trainType
    direction := d.direction
    tripId := d.tripId }

/-- The autocomplete per-entry match test. -/
def autoMatch (query queryNumOnly : String) (k : String) (d : TrainData) : Bool :=
  startsWithL queryNumOnly.data k.data ||
  startsWithL queryNumOnly.data d.trainNumber.data ||
  containsL query.data (jsUpper d.lineName).data

/-- One step of the candidate collection pass: skip keys that are not purely
numeric, skip trainNumbers already collected (dedup before sorting). -/
def autoStep (query queryNumOnly : String) (m : List (String × AutoCandidate))
    (p : String × TrainData) : List (String × AutoCandidate) :=
  if !allDigits p.1.data then m
  else if autoMatch query queryNumOnly p.1 p.2 && !(m.any (fun q => q.1 == p.2.trainNumber)) then
    m ++ [(p.2.trainNumber, toCandidate p.2)]
  else m

/-- The candidate collection pass over the index (the `matches` map). -/
def autoCollect (query queryNumOnly : String) (idx : Index) : List (String × AutoCandidate) :=
  idx.foldl (autoStep query queryNumOnly) []

/-- The `≤` of the autocomplete sort comparator: exact trainNumber match
first, then ascending trainNumber length, then lexicographic. -/
def autoLe (qn : String) (a b : AutoCandidate) : Bool :=
  if a.trainNumber == qn then true
  else if b.trainNumber == qn then false
  else if !(a.trainNumber.length == b.trainNumber.length) then
    decide (a.trainNumber.length < b.trainNumber.length)
  else !(charListLt b.trainNumber.data a.trainNumber.data)

/-- Stable insertion used by `insertionSortBy`. -/
def insertBy {A : Type} (le : A -> A -> Bool) (x : A) : List A -> List A
  | [] => [x]
  | y :: ys => if le x y then x :: y :: ys else y :: insertBy le x ys

/-- Stable insertion sort: the model of the (stable, comparator-consistent)
`Array.prototype.sort`. -/
def insertionSortBy {A : Type} (le : A -> A -> Bool) : List A -> List A
  | [] => []
  | x :: xs => insertBy le x (insertionSortBy le xs)

/-- `GET /trains/autocomplete`: collect, dedup, sort, take 10. -/
def autocomplete (idx : Index) (q : String) : List AutoCandidate :=
  if q == "" then []
  else
    let query := jsTrim (jsUpper q)
    let queryNumOnly := digitsOnly query
    (insertionSortBy (autoLe queryNumOnly)
      ((autoCollect query queryNumOnly idx).map (fun p => p.2))).take 10


/-! ## Retry layer (fetchWithRetry in src/bahntracker/src/services/transportApi.ts
and src/bahntracker/api/transport.ts) -/

structure JsResponse where
  ok : Bool
  status : Nat
deriving DecidableEq, Repr

/-- One upstream fetch outcome per attempt index: a response, or a rejected
promise (network error). -/
abbrev FetchSeq := Nat → Except String JsResponse

def transientStatus (s : Nat) : Bool := s == 503 || s == 500 || s == 429

/-- The retry loop of `fetchWithRetry` in services/transportApi.ts, returning
the outcome and the number of `fetch` calls performed.  `i` is the attempt
index; the second argument is `retries - i`, the remaining loop iterations
(so `0 < rem` in the body is the source's `i < retries - 1`, and `rem = 0`
its `i === retries - 1`).  A non-ok non-transient response throws, but the
throw is inside the `try`, so the `catch` retries it unless this was the
last attempt. -/
def svcFetchRetryGo (env : FetchSeq) (i : Nat) : Nat → Except String JsResponse × Nat
  | 0 => (.error "Max retries reached", 0)
  | rem + 1 =>
    match env i with
    | .ok r =>
      if r.ok then (.ok r, 1)
      else if transientStatus r.status && decide (0 < rem) then
        let next := svcFetchRetryGo env (i + 1) rem
        (next.1, next.2 + 1)
      else if rem == 0 then (.error ("API error: " ++ toString r.status), 1)
      else
        let next := svcFetchRetryGo env (i + 1) rem
        (next.1, next.2 + 1)
    | .error e =>
      if rem == 0 then (.error e, 1)
      else
        let next := svcFetchRetryGo env (i + 1) rem
        (next.1, next.2 + 1)

/-- `fetchWithRetry(url, retries, delay)` of services/transportApi.ts. -/
def svcFetchWithRetry (env : FetchSeq) (retries : Nat) : Except String JsResponse × Nat :=
  svcFetchRetryGo env 0 retries

/-- The retry loop of `fetchWithRetry` in api/transport.ts: as above except a
non-ok non-transient (or last-chance) response is returned to the caller
(`return response`) instead of being thrown. -/
def apiFetchRetryGo (env : FetchSeq) (i : Nat) : Nat → Except String JsResponse × Nat
  | 0 => (.error "Max retries reached", 0)
  | rem + 1 =>
    match env i with
    | .ok r =>
      if r.ok then (.ok r, 1)
      else if transientStatus r.status && decide (0 < rem) then
        let next := apiFetchRetryGo env (i + 1) rem
        (next.1, next.2 + 1)
      else (.ok r, 1)
    | .error e =>
      if rem == 0 then (.error e, 1)
      else
        let next := apiFetchRetryGo env (i + 1) rem
        (next.1, next.2 + 1)

/-- `fetchWithRetry(url, retries, delay)` of api/transport.ts. -/
def apiFetchWithRetry (env : FetchSeq) (retries : Nat) : Except String JsResponse × Nat :=
  apiFetchRetryGo env 0 retries

/-! ## Bounded TTL caches (api/transport.ts and services/transportApi.ts) -/

structure CacheEntry (A : Type) where
  data : A
  timestamp : Nat
deriving DecidableEq, Repr

/-- A JS `Map` of cache entries, in insertion order. -/
abbrev JsCache (A : Type) := List (String × CacheEntry A)

def cacheFind {A : Type} (cache : JsCache A) (k : String) : Option (CacheEntry A) :=
  (cache.find? (fun p => p.1 == k)).map (fun p => p.2)

def cacheDelete {A : Type} (cache : JsCache A) (k : String) : JsCache A :=
  cache.filter (fun p => !(p.1 == k))

/-- JS `Map.set`: overwrite in place if present, else append. -/
def cacheSet {A : Type} (cache : JsCache A) (k : String) (e : CacheEntry A) : JsCache A :=
  if cache.any (fun p => p.1 == k) then
    cache.map (fun p => if p.1 == k then (k, e) else p)
  else cache ++ [(k, e)]

def CACHE_TTL_MS : Nat := 10 * 60 * 1000

def MAX_CACHE_SIZE : Nat := 100

/-- `getFromCache` (api/transport.ts): an expired entry is deleted on read
and reported as a miss. -/
def getFromCache {A : Type} (now : Nat) (cache : JsCache A) (k : String) :
    Option A × JsCache A :=
  match cacheFind cache k with
  | none => (none, cache)
  | some e =>
    if CACHE_TTL_MS < now - e.timestamp then (none, cacheDelete cache k)
    else (some e.data, cache)

/-- `setCache` (api/transport.ts): at capacity, drop expired entries, then
the oldest (first-inserted) entry if still at capacity, then insert. -/
def setCache {A : Type} (now : Nat) (cache : JsCache A) (k : String) (v : A) : JsCache A :=
  let c1 :=
    if MAX_CACHE_SIZE ≤ cache.length then
      let c2 := cache.filter (fun p => !(CACHE_TTL_MS < now - p.2.timestamp))
      if MAX_CACHE_SIZE ≤ c2.length then c2.drop 1 else c2
    else cache
  cacheSet c1 k ⟨v, now⟩

/-- The cached `departures`/`trip` action of the api/transport.ts handler:
serve a fresh hit from the cache, otherwise invoke upstream and store; the
Bool records whether upstream was invoked. -/
def cachedAction {A : Type} (now : Nat) (cache : JsCache A) (k : String) (upstream : A) :
    A × JsCache A × Bool :=
  match getFromCache now cache k with
  | (some v, c1) => (v, c1, false)
  | (none, c1) => (upstream, setCache now c1 k upstream, true)

def SEARCH_CACHE_TTL : Nat := 5 * 60 * 1000

/-- `getCachedSearch` (services/transportApi.ts), TTL 5 minutes. -/
def getCachedSearch {A : Type} (now : Nat) (cache : JsCache A) (k : String) :
    Option A × JsCache A :=
  match cacheFind cache k with
  | none => (none, cache)
  | some e =>
    if SEARCH_CACHE_TTL < now - e.timestamp then (none, cacheDelete cache k)
    else (some e.data, cache)

/-- `setCachedSearch` (services/transportApi.ts): when more than 20 entries
are present, drop the expired ones; then insert.  No live entry is ever
evicted and no hard size cap is enforced. -/
def setCachedSearch {A : Type} (now : Nat) (cache : JsCache A) (k : String) (v : A) :
    JsCache A :=
  let c1 :=
    if 20 < cache.length then
      cache.filter (fun p => !(SEARCH_CACHE_TTL < now - p.2.timestamp))
    else cache
  cacheSet c1 k ⟨v, now⟩

/-! ## Staged fallback search (src/bahntracker/src/services/transportApi.ts) -/

structure LineInfo where
  name : Option String
  fahrtNr : Option String
  product : Option String
deriving DecidableEq, Repr

structure DepRec where
  line : Option LineInfo
  tripId : Option String
deriving DecidableEq, Repr

structure LegRec where
  line : Option LineInfo
  tripId : Option String
deriving DecidableEq, Repr

structure JourneyRec where
  legs : List LegRec
deriving DecidableEq, Repr

structure StopPoint where
  id : Option String
  name : Option String
deriving DecidableEq, Repr

structure StopoverRec where
  stop : Option StopPoint
  arrival : Option String
  plannedArrival : Option String
  departure : Option String
  plannedDeparture : Option String
  arrivalDelay : Option Int
  departureDelay : Option Int
  platform : Option String
  plannedPlatform : Option String
deriving DecidableEq, Repr

structure TripRec where
  id : String
  line : Option LineInfo
  direction : Option String
  stopovers : Option (List StopoverRec)
deriving DecidableEq, Repr

structure TrainStop where
  stationId : Option String
  stationName : Option String
  arrival : Option String
  plannedArrival : Option String
  departure : Option String
  plannedDeparture : Option String
  arrivalDelay : Option Int
  departureDelay : Option Int
  platform : Option String
  plannedPlatform : Option String
deriving DecidableEq, Repr

structure TrainJourney where
  tripId : String
  trainNumber : String
  trainType : String
  trainName : String
  direction : Option String
  stops : List TrainStop
  origin : Option TrainStop
  destination : Option TrainStop
deriving DecidableEq, Repr

structure TsStop where
  stationName : Option String
  arrival : Option String
  departure : Option String
deriving DecidableEq, Repr

structure TsTrain where
  name : Option String
  stops : Option (List TsStop)
deriving DecidableEq, Repr

structure TsResp where
  respOk : Bool
  trains : Option (List TsTrain)
deriving DecidableEq, Repr

/-- The network as the client search sees it: departures per station id
(`getDepartures`), trip details per trip id (`getTripDetails`, null on any
failure), journeys per route, the trainsearch response, and the clock. -/
structure ClientEnv where
  stationDeps : String → Except String (List DepRec)
  trip : String → Option TripRec
  journeys : String → String → Except String (List JourneyRec)
  trainsearch : String → Except String TsResp
  nowMs : Nat

/-- JS `parts.join(' ')` on the pieces of a single-space split. -/
def joinSpace (ts : List (List Char)) : String := ⟨List.intercalate [' '] ts⟩

/-- `convertToTrainJourney(trip)` (the opaque stop `location` payload, carried
but never inspected by the source, is omitted). -/
def convertToTrainJourney (trip : TripRec) : Option TrainJourney :=
  match trip.stopovers with
  | none => none
  | some [] => none
  | some (s0 :: srest) =>
    let stops : List TrainStop := (s0 :: srest).map (fun s =>
      { stationId := s.stop.bind (fun p => p.id)
        stationName := s.stop.bind (fun p => p.name)
        arrival := s.arrival
        plannedArrival := s.plannedArrival
        departure := s.departure
        plannedDeparture := s.plannedDeparture
        arrivalDelay := s.arrivalDelay
        departureDelay := s.departureDelay
        platform := s.platform
        plannedPlatform := s.plannedPlatform })
    let lineName := jsOrEmpty (trip.line.bind (fun l => l.name))
    let firstTok : String := ⟨(charSplit ' ' lineName.data).headD []⟩
    let trainType :=
      if !(firstTok == "") then firstTok
      else if jsStrTruthy (trip.line.bind (fun l => l.product)) then
        jsOrEmpty (trip.line.bind (fun l => l.product))
      else "Zug"
    some { tripId := trip.id
           trainNumber := joinSpace ((charSplit ' ' lineName.data).drop 1)
           trainType := trainType
           trainName := lineName
           direction := trip.direction
           stops := stops
           origin := stops.head?
           destination := stops.getLast? }

/-- The 20 station ids of the stage-1 fast path (`majorStations` in
`searchViaStations`). -/
def svcMajorStations : List String :=
  ["8000105", "8000261", "8011160", "8000152", "8000207", "8000096", "8000284",
   "8010224", "8000191", "8000050", "8000149", "8000085", "8010101", "8000128",
   "8000244", "8000080", "8000098", "8003200", "8000263", "8000294"]

/-- The stage-1 per-departure match test. -/
def depMatches (searchNum searchFull : String) (dep : DepRec) : Bool :=
  let lineName := jsUpper (jsOrEmpty (dep.line.bind (fun l => l.name)))
  let fahrtNr := jsOrEmpty (dep.line.bind (fun l => l.fahrtNr))
  let lineNameNoSpace := stripWs lineName
  let trainNumberInName : String := ⟨(wsSplit lineName.data).getLastD []⟩
  (!(searchNum == "") && fahrtNr == searchNum) ||
  (!(searchNum == "") && trainNumberInName == searchNum) ||
  (!(searchFull == "") && lineNameNoSpace == searchFull)

/-- Collect the matching, unseen trip ids of one station's departure list
(`seenTripIds` always holds exactly the collected trip ids). -/
def scanOneStation (searchNum searchFull : String) (matching : List String)
    (deps : List DepRec) : List String :=
  deps.foldl (fun m dep =>
    if depMatches searchNum searchFull dep && jsStrTruthy dep.tripId &&
        !(m.contains (jsOrEmpty dep.tripId)) then
      m ++ [jsOrEmpty dep.tripId]
    else m) matching

/-- The station loop of stage 1: stop scanning further stations once at
least one match was collected. -/
def scanStationsLoop (searchNum searchFull : String) :
    List (List DepRec) → List String → List String
  | [], matching => matching
  | deps :: rest, matching =>
    let m2 := scanOneStation searchNum searchFull matching deps
    if 1 ≤ m2.length then m2 else scanStationsLoop searchNum searchFull rest m2

/-- The trip-detail loop of stage 1: fetch details for the first collected
trips, convert, stop after the first convertible journey. -/
def fetchTripsLoop (env : ClientEnv) : List String → List TrainJourney → List TrainJourney
  | [], results => results
  | tid :: rest, results =>
    let results2 :=
      match env.trip tid with
      | none => results
      | some trip =>
        if trip.stopovers.isSome then
          match convertToTrainJourney trip with
          | some j => results ++ [j]
          | none => results
        else results
    if 1 ≤ results2.length then results2 else fetchTripsLoop env rest results2

/-- `searchViaStations(trainNumber)`: stage 1 of the hybrid search. -/
def searchViaStations (env : ClientEnv) (trainNumber : String) : List TrainJourney :=
  let searchNum := digitsOnly trainNumber
  let searchFull := jsUpper (stripWs trainNumber)
  let allDepartures := svcMajorStations.map (fun sid =>
    match env.stationDeps sid with
    | .ok deps => deps
    | .error _ => [])
  let matching := scanStationsLoop searchNum searchFull allDepartures []
  fetchTripsLoop env (matching.take 3) []

/-- The fixed long-distance routes of stage 2 (`knownRoutes`). -/
def knownRoutes : List (String × String) :=
  [("8000263", "8000261"), ("8000207", "8000261"), ("8011160", "8000261"),
   ("8000149", "8000261"), ("8000105", "8011160"), ("8000207", "8011160"),
   ("8000149", "8011160"), ("8000096", "8011160")]

structure JourneyScanState where
  seen : List String
  results : List TrainJourney
  done : Bool
deriving DecidableEq, Repr

/-- One leg of the stage-2 scan; `done` models the early `return results`
after the first converted journey. -/
def scanLeg (env : ClientEnv) (searchNum searchFull : String) (st : JourneyScanState)
    (leg : LegRec) : JourneyScanState :=
  if st.done then st
  else if !jsStrTruthy (leg.line.bind (fun l => l.name)) || !jsStrTruthy leg.tripId then st
  else
    let lineName := jsUpper (jsOrEmpty (leg.line.bind (fun l => l.name)))
    let lineNameNoSpace := stripWs lineName
    let trainNumberInName : String := ⟨(wsSplit lineName.data).getLastD []⟩
    let isMatch := (!(searchNum == "") && trainNumberInName == searchNum) ||
                   (!(searchFull == "") && lineNameNoSpace == searchFull)
    let tid := jsOrEmpty leg.tripId
    if isMatch && !(st.seen.contains tid) then
      let seen2 := st.seen ++ [tid]
      match env.trip tid with
      | none => { st with seen := seen2 }
      | some trip =>
        if trip.stopovers.isSome then
          match convertToTrainJourney trip with
          | some c =>
            let results2 := st.results ++ [c]
            { seen := seen2, results := results2, done := 1 ≤ results2.length }
          | none => { st with seen := seen2 }
        else { st with seen := seen2 }
    else st

/-- `searchViaJourneys(trainNumber)`: stage 2 of the hybrid search. -/
def searchViaJourneys (env : ClientEnv) (trainNumber : String) : List TrainJourney :=
  let searchNum := digitsOnly trainNumber
  let searchFull := jsUpper (stripWs trainNumber)
  let routeResults := knownRoutes.map (fun r =>
    match env.journeys r.1 r.2 with
    | .ok js => js
    | .error _ => [])
  let final := routeResults.foldl (fun st journeys =>
    journeys.foldl (fun st2 j =>
      j.legs.foldl (scanLeg env searchNum searchFull) st2) st)
    ⟨[], [], false⟩
  final.results

/-- The stop list a trainsearch result is converted to. -/
def tsStops (train : TsTrain) : List TrainStop :=
  (train.stops.getD []).map (fun s =>
    { stationId := some ""
      stationName := some (if jsStrTruthy s.stationName then jsOrEmpty s.stationName
                           else "Unbekannt")
      arrival := jsOrNullStr s.arrival
      plannedArrival := jsOrNullStr s.arrival
      departure := jsOrNullStr s.departure
      plannedDeparture := jsOrNullStr s.departure
      arrivalDelay := none
      departureDelay := none
      platform := none
      plannedPlatform := none })

/-- `searchViaTrainsearch(trainNumber)`: stage 3 of the hybrid search — the
DB trainsearch.exe scraper fallback, called with the query as-is. -/
def searchViaTrainsearch (env : ClientEnv) (trainNumber : String) : List TrainJourney :=
  match env.trainsearch trainNumber with
  | .error _ => []
  | .ok resp =>
    if !resp.respOk then []
    else
      match resp.trains with
      | none => []
      | some [] => []
      | some (t0 :: trest) =>
        (t0 :: trest).foldl (fun results train =>
          let stops := tsStops train
          if 0 < stops.length then
            let trainName := if jsStrTruthy train.name then jsOrEmpty train.name
                             else trainNumber
            let firstTok : String := ⟨(charSplit ' ' trainName.data).headD []⟩
            let trainType := if !(firstTok == "") then firstTok else "Zug"
            results ++ [{
              tripId := "trainsearch-" ++ trainName ++ "-" ++ toString env.nowMs
              trainNumber := joinSpace ((charSplit ' ' trainName.data).drop 1)
              trainType := trainType
              trainName := trainName
              direction := some (jsOrEmpty ((stops.getLast?).bind (fun st => st.stationName)))
              stops := stops
              origin := stops.head?
              destination := stops.getLast? }]
          else results) []

/-- `searchTrainByNumber(trainNumber)` (services/transportApi.ts): check the
client cache, then run the three stages in order, caching and returning the
first non-empty result. -/
def searchTrainByNumber (env : ClientEnv) (cache : JsCache (List TrainJourney))
    (trainNumber : String) : List TrainJourney × JsCache (List TrainJourney) :=
  let cleanedNumber := jsUpper (jsTrim trainNumber)
  if cleanedNumber == "" then ([], cache)
  else
    match getCachedSearch env.nowMs cache cleanedNumber with
    | (some r, c1) => (r, c1)
    | (none, c1) =>
      let r1 := searchViaStations env cleanedNumber
      if 0 < r1.length then (r1, setCachedSearch env.nowMs c1 cleanedNumber r1)
      else
        let r2 := searchViaJourneys env cleanedNumber
        if 0 < r2.length then (r2, setCachedSearch env.nowMs c1 cleanedNumber r2)
        else
          let r3 := searchViaTrainsearch env cleanedNumber
          if 0 < r3.length then (r3, setCachedSearch env.nowMs c1 cleanedNumber r3)
          else ([], c1)

/-- Modelled from the spec: the numeric-prefix retry that §4.6 describes as
the third fallback stage — when the query is purely numeric, retry the
station fast-path with each known type prefix prepended, first non-empty
result wins.  The source has no such stage; this is the spec-side reference
for comparison. -/
def specNumericRetryStage (env : ClientEnv) (q : String) : List TrainJourney :=
  if allDigits q.data then
    ((typeCodes.map (fun p => searchViaStations env (p ++ " " ++ q))).find?
      (fun r => !r.isEmpty)).getD []
  else []


/-! ## Concrete fixtures used by the verification scenarios -/

/-- Frankfurt's report of ICE 513 (trip "A"). -/
def frankfurtReport : RawRecord :=
  { lineName := some "ICE 513", tripId := some "A", direction := none,
    whenAt := none, plannedWhen := none, delay := none }

/-- Berlin's report of ICE 513 (trip "B"), a later window. -/
def berlinReport : RawRecord :=
  { lineName := some "ICE 513", tripId := some "B", direction := none,
    whenAt := none, plannedWhen := none, delay := none }

/-- An environment where Frankfurt (catalog position 1) reports ICE 513 with
trip "A" in the first window and Berlin (catalog position 3) reports it with
trip "B" in a later window; everything else is empty. -/
def twoStationEnv : FetchEnv :=
  { deps := fun sid w =>
      if sid == "8000105" && w == 0 then .ok [frankfurtReport]
      else if sid == "8011160" && w == 6 then .ok [berlinReport]
      else .ok []
    arrs := fun _ _ => .ok []
    durationS := 0 }

/-- A record whose line label "THA 9442" has no recognized train type. -/
def thaRecord : RawRecord :=
  { lineName := some "THA 9442", tripId := some "T9442", direction := none,
    whenAt := none, plannedWhen := none, delay := none }

def thaStation : Station := ⟨"8700011", "Paris Est"⟩

/-- A fetch environment where every upstream call returns the empty list. -/
def emptyFetchEnv : FetchEnv :=
  { deps := fun _ _ => .ok [], arrs := fun _ _ => .ok [], durationS := 0 }

/-- The pristine server state at process start. -/
def initialServerState : ServerState :=
  { trainIndex := [], indexStatus := .notInit, indexLastUpdated := none }

/-- A server state captured mid-rebuild. -/
def buildingServerState : ServerState :=
  { trainIndex := [], indexStatus := .building, indexLastUpdated := none }

def frankfurtStation : Station := ⟨"8000105", "Frankfurt Hbf"⟩

def berlinStation : Station := ⟨"8011160", "Berlin Hbf"⟩

/-- The entry of `oneKeyIndex`. -/
def oneKeyEntry : TrainData :=
  { tripId := "A", lineName := "ICE 513", trainNumber := "513",
    trainType := some "ICE", station := "8000105",
    stationName := "Frankfurt Hbf", direction := none, time := none,
    delay := 0, source := "dep-now-6h" }

/-- A one-entry index filed under the key "ICE 513". -/
def oneKeyIndex : Index := [("ICE 513", oneKeyEntry)]

/-- A fetch sequence that always answers with a non-transient 404. -/
def env404 : FetchSeq := fun _ => .ok ⟨false, 404⟩

/-- A fetch sequence: two 503s, then a successful 200. -/
def env503then200 : FetchSeq :=
  fun i => if i < 2 then .ok ⟨false, 503⟩ else .ok ⟨true, 200⟩

/-- A fetch sequence that always succeeds. -/
def envOk200 : FetchSeq := fun _ => .ok ⟨true, 200⟩

/-- A fetch sequence that always rejects (network error). -/
def envErrBoom : FetchSeq := fun _ => .error "boom"

/-- 25 distinct fresh keys inserted through `setCachedSearch` starting from
the empty cache, all at time 0. -/
def svcCacheTest : JsCache Nat :=
  (List.range 25).foldl (fun c n => setCachedSearch 0 c (toString n) n) []

/-- A stopover with full details, for the staged-search scenario. -/
def ceStop (n : String) : StopoverRec :=
  { stop := some ⟨some ("S" ++ n), some ("Stop " ++ n)⟩,
    arrival := some "a", plannedArrival := some "a",
    departure := some "d", plannedDeparture := some "d",
    arrivalDelay := some 0, departureDelay := some 0,
    platform := some "1", plannedPlatform := some "1" }

/-- A trip for the train labelled "ICE513" (no space in the label). -/
def ceTrip : TripRec :=
  { id := "T1", line := some ⟨some "ICE513", none, some "nationalExpress"⟩,
    direction := some "München Hbf", stopovers := some [ceStop "1", ceStop "2"] }

/-- A departure of the train labelled "ICE513" at Frankfurt. -/
def ceDep : DepRec := { line := some ⟨some "ICE513", none, none⟩, tripId := some "T1" }

/-- A client environment where Frankfurt reports the train labelled
"ICE513", its trip details resolve, and journeys and trainsearch yield
nothing. -/
def prefixCeEnv : ClientEnv :=
  { stationDeps := fun sid => if sid == "8000105" then .ok [ceDep] else .ok []
    trip := fun tid => if tid == "T1" then some ceTrip else none
    journeys := fun _ _ => .ok []
    trainsearch := fun _ => .ok ⟨true, some []⟩
    nowMs := 0 }

/-! ## Character lemmas -/

theorem toNat_char_ofNat_of_lt {n : Nat} (h : n < 55296) : (Char.ofNat n).toNat = n := by
  unfold Char.ofNat
  rw [dif_pos (Or.inl h)]
  rfl

theorem toNat_upChar (c : Char) :
    (upChar c).toNat = if 97 ≤ c.toNat ∧ c.toNat ≤ 122 then c.toNat - 32 else c.toNat := by
  unfold upChar Char.toUpper
  split
  · next h =>
    rw [if_pos ⟨h.1, h.2⟩]
    exact toNat_char_ofNat_of_lt (by omega)
  · next h =>
    rw [if_neg (fun hc => h ⟨hc.1, hc.2⟩)]

theorem upChar_eq_self_of_not_lower {c : Char} (h : ¬(97 ≤ c.toNat ∧ c.toNat ≤ 122)) :
    upChar c = c := by
  unfold upChar Char.toUpper
  exact if_neg (fun hc => h ⟨hc.1, hc.2⟩)

theorem isDigitC_upChar (c : Char) : isDigitC (upChar c) = isDigitC c := by
  simp only [isDigitC, toNat_upChar]
  by_cases h : 97 ≤ c.toNat ∧ c.toNat ≤ 122
  · rw [if_pos h]
    have h1 : (48 ≤ c.toNat - 32 && c.toNat - 32 ≤ 57) = false := by
      simp only [Bool.and_eq_false_iff, decide_eq_false_iff_not]
      omega
    have h2 : (48 ≤ c.toNat && c.toNat ≤ 57) = false := by
      simp only [Bool.and_eq_false_iff, decide_eq_false_iff_not]
      omega
    rw [h1, h2]
  · rw [if_neg h]

theorem isWsC_upChar (c : Char) : isWsC (upChar c) = isWsC c := by
  simp only [isWsC, toNat_upChar]
  by_cases h : 97 ≤ c.toNat ∧ c.toNat ≤ 122
  · rw [if_pos h]
    have h1 : ∀ n : Nat, 65 ≤ n → n ≤ 122 →
        (n == 9 || n == 10 || n == 11 || n == 12 || n == 13 ||
         n == 32 || n == 160 || n == 5760 || (8192 ≤ n && n ≤ 8202) ||
         n == 8232 || n == 8233 || n == 8239 || n == 8287 ||
         n == 12288 || n == 65279) = false := by
      intro n hn hn2
      simp only [Bool.or_eq_false_iff, Bool.and_eq_false_iff,
        beq_eq_false_iff_ne, ne_eq, decide_eq_false_iff_not]
      omega
    rw [h1 _ (by omega) (by omega), h1 _ (by omega) (by omega)]
  · rw [if_neg h]

theorem upChar_eq_self_of_isDigitC {c : Char} (h : isDigitC c = true) : upChar c = c := by
  apply upChar_eq_self_of_not_lower
  simp only [isDigitC, Bool.and_eq_true, decide_eq_true_eq] at h
  omega

theorem upChar_upChar (c : Char) : upChar (upChar c) = upChar c := by
  by_cases h : 97 ≤ c.toNat ∧ c.toNat ≤ 122
  · apply upChar_eq_self_of_not_lower
    rw [toNat_upChar, if_pos h]
    omega
  · rw [upChar_eq_self_of_not_lower h, upChar_eq_self_of_not_lower h]

theorem all_isDigitC_map_upChar (cs : List Char) :
    (cs.map upChar).all isDigitC = cs.all isDigitC := by
  induction cs with
  | nil => rfl
  | cons c cs ih => simp [List.all_cons, isDigitC_upChar, ih]

theorem allDigits_map_upChar (cs : List Char) :
    allDigits (cs.map upChar) = allDigits cs := by
  cases cs with
  | nil => rfl
  | cons c cs =>
    simp only [allDigits, List.map_cons, List.isEmpty_cons]
    rw [← List.map_cons upChar c cs, all_isDigitC_map_upChar]

theorem map_upChar_eq_self_of_all (cs : List Char) (h : ∀ x ∈ cs, isDigitC x = true) :
    cs.map upChar = cs := by
  induction cs with
  | nil => rfl
  | cons c cs ih =>
    simp only [List.map_cons]
    rw [upChar_eq_self_of_isDigitC (h c (by simp)), ih (fun x hx => h x (by simp [hx]))]

theorem map_upChar_eq_self_of_allDigits {cs : List Char} (h : allDigits cs = true) :
    cs.map upChar = cs := by
  simp only [allDigits, Bool.and_eq_true, List.all_eq_true] at h
  exact map_upChar_eq_self_of_all cs h.2

theorem wsSplit_ne_nil (cs : List Char) : wsSplit cs ≠ [] := by
  induction cs with
  | nil => simp [wsSplit]
  | cons c cs ih =>
    rcases cs with _ | ⟨c2, cs2⟩
    · rw [wsSplit]
      split <;> simp
    · rw [wsSplit]
      split
      · split
        · exact ih
        · simp
      · rcases h : wsSplit (c2 :: cs2) with _ | ⟨t, ts⟩
        · exact absurd h ih
        · simp

theorem wsSplit_map_upChar (cs : List Char) :
    wsSplit (cs.map upChar) = (wsSplit cs).map (List.map upChar) := by
  induction cs with
  | nil => rfl
  | cons c cs ih =>
    rcases cs with _ | ⟨c2, cs2⟩
    · simp only [List.map_cons, List.map_nil, wsSplit, isWsC_upChar]
      by_cases hws : isWsC c
      · rw [if_pos hws, if_pos hws]
        rfl
      · rw [if_neg hws, if_neg hws]
        rfl
    · simp only [List.map_cons] at ih ⊢
      rw [wsSplit, wsSplit, isWsC_upChar, isWsC_upChar]
      by_cases hws : isWsC c
      · rw [if_pos hws, if_pos hws]
        by_cases hws2 : isWsC c2
        · rw [if_pos hws2, if_pos hws2, ih]
        · rw [if_neg hws2, if_neg hws2, ih]
          rfl
      · rw [if_neg hws, if_neg hws, ih]
        rcases h : wsSplit (c2 :: cs2) with _ | ⟨t, ts⟩
        · exact absurd h (wsSplit_ne_nil (c2 :: cs2))
        · rfl

@[simp] theorem data_mk (cs : List Char) : (⟨cs⟩ : String).data = cs := rfl

theorem find?_allDigits_map_upChar (l : List (List Char)) :
    (l.map (List.map upChar)).find? allDigits = l.find? allDigits := by
  induction l with
  | nil => rfl
  | cons t ts ih =>
    simp only [List.map_cons, List.find?_cons, allDigits_map_upChar]
    by_cases h : allDigits t
    · rw [h]
      simp only [cond_true, Option.some.injEq]
      exact map_upChar_eq_self_of_allDigits h
    · rw [Bool.of_not_eq_true h]
      simpa using ih

theorem find?_allDigits_tokens (l : List (List Char)) :
    ((l.filter (fun t => !t.isEmpty)).map (fun cs => (⟨cs⟩ : String))).find?
        (fun t => allDigits t.data) =
      (l.find? allDigits).map (fun cs => (⟨cs⟩ : String)) := by
  induction l with
  | nil => rfl
  | cons t ts ih =>
    by_cases h1 : t.isEmpty
    · have had : allDigits t = false := by
        simp only [allDigits]
        rw [h1]
        rfl
      simp [List.filter_cons, h1, had, List.find?_cons, ih]
    · by_cases h2 : allDigits t
      · simp [List.filter_cons, h1, List.find?_cons, h2]
      · simp [List.filter_cons, Bool.of_not_eq_true h1, List.find?_cons,
          Bool.of_not_eq_true h2, ih]

/-- C8: for every label containing at least one whitespace-delimited purely
numeric token, `extractTrainNumber` returns the first such token; for every
label with no such token (including the empty or absent label) it returns
none.  Stated as: the extractor equals `find?` of the all-digit predicate
over the label's whitespace-delimited tokens. -/
theorem extractTrainNumber_first_numeric_token (s : String) :
    extractTrainNumber (some s) = (wsTokens s).find? (fun t => allDigits t.data) ∧
    extractTrainNumber none = none := by
  refine ⟨?_, rfl⟩
  by_cases hs : s = ""
  · subst hs
    rfl
  · simp only [extractTrainNumber, if_neg hs, wsTokens]
    have hdata : (jsUpper s).data = s.data.map upChar := rfl
    rw [hdata, wsSplit_map_upChar, find?_allDigits_map_upChar, find?_allDigits_tokens]

/-! ## Rebuild lifecycle (C1, C9) -/

theorem buildFold_idx (env : FetchEnv) (l : List Station) (acc : BuildAcc) :
    (l.foldl (buildStep env) acc).idx =
      l.foldl (fun idx st => (processStation env idx st).1) acc.idx := by
  induction l generalizing acc with
  | nil => rfl
  | cons s l ih =>
    rw [List.foldl_cons, List.foldl_cons, ih]
    rfl

theorem buildFold_stations (env : FetchEnv) (l : List Station) (acc : BuildAcc) :
    (l.foldl (buildStep env) acc).stationsProcessed = acc.stationsProcessed + l.length := by
  induction l generalizing acc with
  | nil => rfl
  | cons s l ih =>
    rw [List.foldl_cons, ih]
    simp [buildStep]
    omega

/-- C1: every rebuild attempt terminates with status 'ready' — the status
never remains 'building' past the attempt's end (every fallible operation in
the loop is caught per station/window, so no throw can escape) — the state
published in the single final step is exactly the fully built index with a
fresh timestamp, and every observable state before the publish still carries
the previous snapshot with status 'building': readers never see a partially
built index. -/
theorem buildTrainIndex_attempt_terminal (env : FetchEnv) (st : ServerState) (now : Nat) :
    (buildTrainIndex env now).2.indexStatus = IndexStatus.ready ∧
    (buildTrainIndex env now).2.trainIndex = fullIndex env ∧
    (buildTrainIndex env now).2.indexLastUpdated = some now ∧
    (∀ s ∈ (buildTrace env st now).dropLast,
        s.trainIndex = st.trainIndex ∧ s.indexStatus = IndexStatus.building) ∧
    (buildTrace env st now).getLast? = some (buildTrainIndex env now).2 := by
  refine ⟨rfl, ?_, rfl, ?_, ?_⟩
  · show (majorStations.foldl (buildStep env) ⟨[], 0, 0, 0⟩).idx = fullIndex env
    rw [buildFold_idx]
    rfl
  · intro s hs
    rw [buildTrace, List.dropLast_concat] at hs
    rcases List.mem_cons.1 hs with rfl | hs2
    · exact ⟨rfl, rfl⟩
    · rcases List.mem_map.1 hs2 with ⟨stn, _, rfl⟩
      exact ⟨rfl, rfl⟩
  · rw [buildTrace, List.getLast?_concat]

/-- C1 witness: a concrete rebuild from the pristine state under the empty
environment ends ready, and the first observable state still carries the
previous (empty) snapshot. -/
theorem buildTrainIndex_attempt_terminal_witness :
    (buildTrainIndex emptyFetchEnv 0).2.indexStatus = IndexStatus.ready ∧
    buildingServerState.trainIndex = initialServerState.trainIndex := by
  have h := buildTrainIndex_attempt_terminal emptyFetchEnv initialServerState 0
  refine ⟨h.1, ?_⟩
  exact (h.2.2.2.1 buildingServerState (by decide)).1

/-- C9: a manual rebuild issued while the status is 'building' is rejected
with the 409 conflict and leaves the state untouched; otherwise the rebuild
runs, the published state becomes current, and the response carries the
rebuild's summary (entries = published index size, all stations processed,
zero loop errors, the measured duration). -/
theorem rebuildEndpoint_conflict_or_summary (env : FetchEnv) (st : ServerState) (now : Nat) :
    (st.indexStatus = IndexStatus.building →
      rebuildEndpoint env st now = (.conflict "Index is already being built", st)) ∧
    (st.indexStatus ≠ IndexStatus.building →
      rebuildEndpoint env st now =
        (.success (buildTrainIndex env now).1 (some now), (buildTrainIndex env now).2) ∧
      (buildTrainIndex env now).1.entries = (fullIndex env).length ∧
      (buildTrainIndex env now).1.stations = majorStations.length ∧
      (buildTrainIndex env now).1.errors = 0 ∧
      (buildTrainIndex env now).1.duration = env.durationS) := by
  constructor
  · intro h
    rw [rebuildEndpoint, if_pos h]
  · intro h
    refine ⟨?_, ?_, ?_, rfl, rfl⟩
    · rw [rebuildEndpoint, if_neg h]
      rfl
    · show (majorStations.foldl (buildStep env) ⟨[], 0, 0, 0⟩).idx.length = (fullIndex env).length
      rw [buildFold_idx]
      rfl
    · show (majorStations.foldl (buildStep env) ⟨[], 0, 0, 0⟩).stationsProcessed = majorStations.length
      rw [buildFold_stations]
      simp

/-- C9 witness: the conflict branch at a building state, and the summary's
station count for a concrete run. -/
theorem rebuildEndpoint_conflict_or_summary_witness :
    rebuildEndpoint emptyFetchEnv buildingServerState 0 =
      (.conflict "Index is already being built", buildingServerState) ∧
    (buildTrainIndex emptyFetchEnv 0).1.stations = majorStations.length := by
  constructor
  · exact (rebuildEndpoint_conflict_or_summary emptyFetchEnv buildingServerState 0).1 rfl
  · exact ((rebuildEndpoint_conflict_or_summary emptyFetchEnv initialServerState 0).2
      (by decide)).2.2.1

/-! ## Index Entry Builder key generation (C2) -/

theorem str_ne_empty_of_data_ne {s : String} (h : s.data ≠ []) : s ≠ "" := by
  intro hs
  rw [hs] at h
  exact h rfl

theorem extractTrainNumber_allDigits {s n : String}
    (h : extractTrainNumber (some s) = some n) : allDigits n.data = true := by
  by_cases hs : s = ""
  · rw [extractTrainNumber, if_pos hs] at h
    cases h
  · rw [extractTrainNumber, if_neg hs] at h
    rcases Option.map_eq_some'.1 h with ⟨cs, hcs, rfl⟩
    exact List.find?_some hcs

theorem extractTrainType_mem {s ty : String}
    (h : extractTrainType (some s) = some ty) : ty ∈ typeCodes := by
  by_cases hs : s = ""
  · rw [extractTrainType, if_pos hs] at h
    cases h
  · rw [extractTrainType, if_neg hs] at h
    exact List.mem_of_find?_eq_some h

theorem data_append_str (a b : String) : (a ++ b).data = a.data ++ b.data := rfl

theorem jsUpper_append (a b : String) : jsUpper (a ++ b) = jsUpper a ++ jsUpper b := by
  show (⟨((a ++ b).data).map upChar⟩ : String) = ⟨(a.data.map upChar) ++ (b.data.map upChar)⟩
  rw [data_append_str, List.map_append]

theorem jsUpper_eq_self_of_allDigits {n : String} (h : allDigits n.data = true) :
    jsUpper n = n := by
  show (⟨n.data.map upChar⟩ : String) = n
  rw [map_upChar_eq_self_of_allDigits h]

theorem map_upChar_idem (l : List Char) : (l.map upChar).map upChar = l.map upChar := by
  induction l with
  | nil => rfl
  | cons c cs ih => simp [upChar_upChar, ih]

theorem jsUpper_idem (s : String) : jsUpper (jsUpper s) = jsUpper s := by
  show (⟨(s.data.map upChar).map upChar⟩ : String) = ⟨s.data.map upChar⟩
  rw [map_upChar_idem]

theorem typeCodes_uppercase : ∀ t ∈ typeCodes, jsUpper t = t := by decide

/-- C2 counterexample: the record labelled "THA 9442" has an unrecognized
train type, so the builder renders the null type as the text "null" inside
the template literals and files the entry under "null9442" and "null 9442" —
keys that are not fully uppercased. -/
theorem trainKeys_null_type_not_uppercase :
    extractTrainType (some "THA 9442") = none ∧
    extractTrainNumber (some "THA 9442") = some "9442" ∧
    ((addTrainToIndex [] thaRecord thaStation "dep-now-6h").1.map (fun p => p.1)) =
      ["9442", "null9442", "null 9442", "THA 9442"] ∧
    jsUpper "null9442" ≠ "null9442" := by decide

/-- C2 amended: a record with a tripId, a line label and an extractable train
number generates exactly the four keys — bare number, type concatenated with
number, type-space-number, uppercased label.  When the train type is
recognized every generated key is a fully uppercased string; when it is
unrecognized (none) the two type-derived keys embed the lowercase text
"null" (JS template-literal coercion) and are not fully uppercased. -/
theorem keysFor_shape_and_case (lineName trainNumber : String)
    (h : extractTrainNumber (some lineName) = some trainNumber) :
    keysFor trainNumber (extractTrainType (some lineName)) lineName =
      [trainNumber,
       jsTemplateStr (extractTrainType (some lineName)) ++ trainNumber,
       jsTemplateStr (extractTrainType (some lineName)) ++ " " ++ trainNumber,
       jsUpper lineName] ∧
    (∀ ty, extractTrainType (some lineName) = some ty →
      ∀ k ∈ keysFor trainNumber (extractTrainType (some lineName)) lineName,
        jsUpper k = k) ∧
    (extractTrainType (some lineName) = none →
      jsUpper ("null" ++ trainNumber) ≠ "null" ++ trainNumber) := by
  have hdig : allDigits trainNumber.data = true := extractTrainNumber_allDigits h
  have hnnil : trainNumber.data ≠ [] := by
    simp only [allDigits, Bool.and_eq_true] at hdig
    simpa using hdig.1
  have hnum : trainNumber ≠ "" := str_ne_empty_of_data_ne hnnil
  have hline : lineName ≠ "" := by
    intro hs
    rw [extractTrainNumber, if_pos hs] at h
    cases h
  have hlineD : lineName.data ≠ [] := by
    intro hd
    apply hline
    cases lineName with
    | mk d =>
      cases hd
      rfl
  have hts : jsTemplateStr (extractTrainType (some lineName)) ≠ "" := by
    cases hty : extractTrainType (some lineName) with
    | none =>
      simp [jsTemplateStr]
    | some ty =>
      have hmem := extractTrainType_mem hty
      have hne : ∀ t ∈ typeCodes, t ≠ "" := by decide
      simpa [jsTemplateStr] using hne ty hmem
  have hshape : keysFor trainNumber (extractTrainType (some lineName)) lineName =
      [trainNumber,
       jsTemplateStr (extractTrainType (some lineName)) ++ trainNumber,
       jsTemplateStr (extractTrainType (some lineName)) ++ " " ++ trainNumber,
       jsUpper lineName] := by
    have h1 : (trainNumber == "") = false := beq_eq_false_iff_ne.2 hnum
    have h2 : (jsTemplateStr (extractTrainType (some lineName)) ++ trainNumber == "") = false := by
      refine beq_eq_false_iff_ne.2 (str_ne_empty_of_data_ne ?_)
      rw [data_append_str]
      intro hnil
      exact hnnil (List.append_eq_nil.1 hnil).2
    have h3 : (jsTemplateStr (extractTrainType (some lineName)) ++ " " ++ trainNumber == "") = false := by
      refine beq_eq_false_iff_ne.2 (str_ne_empty_of_data_ne ?_)
      rw [data_append_str]
      intro hnil
      exact hnnil (List.append_eq_nil.1 hnil).2
    have h4 : (jsUpper lineName == "") = false := by
      refine beq_eq_false_iff_ne.2 (str_ne_empty_of_data_ne ?_)
      show lineName.data.map upChar ≠ []
      intro hnil
      exact hlineD (List.map_eq_nil_iff.1 hnil)
    simp [keysFor, List.filter, h1, h2, h3, h4]
  refine ⟨hshape, ?_, ?_⟩
  · intro ty hty k hk
    rw [hshape] at hk
    have htyU : jsUpper ty = ty := typeCodes_uppercase ty (extractTrainType_mem hty)
    have hnU : jsUpper trainNumber = trainNumber := jsUpper_eq_self_of_allDigits hdig
    have htpl : jsTemplateStr (extractTrainType (some lineName)) = ty := by
      rw [hty]
      rfl
    simp only [List.mem_cons, List.not_mem_nil, or_false] at hk
    rcases hk with hk | hk | hk | hk
    · rw [hk]
      exact hnU
    · rw [hk, htpl, jsUpper_append, htyU, hnU]
    · rw [hk, htpl, jsUpper_append, jsUpper_append, htyU, hnU]
      rfl
    · rw [hk]
      exact jsUpper_idem lineName
  · intro hty heq
    have hd := congrArg String.data heq
    have hl : ("null" ++ trainNumber).data = 'n' :: 'u' :: 'l' :: 'l' :: trainNumber.data := rfl
    rw [show (jsUpper ("null" ++ trainNumber)).data = ("null" ++ trainNumber).data.map upChar from rfl, hl] at hd
    simp only [List.map_cons] at hd
    injection hd with h1 h2
    exact absurd h1 (by decide)

/-- C2 witness: the recognized-type record "ICE 513" generates the four keys
and its concatenated key "ICE513" is fully uppercase. -/
theorem keysFor_shape_and_case_witness :
    keysFor "513" (extractTrainType (some "ICE 513")) "ICE 513" =
      ["513",
       jsTemplateStr (extractTrainType (some "ICE 513")) ++ "513",
       jsTemplateStr (extractTrainType (some "ICE 513")) ++ " " ++ "513",
       jsUpper "ICE 513"] ∧
    jsUpper "ICE513" = "ICE513" := by
  have h := keysFor_shape_and_case "ICE 513" "513" (by decide)
  refine ⟨h.1, ?_⟩
  exact h.2.1 "ICE" (by decide) "ICE513" (by decide)

/-! ## First-seen-per-build dedup (C3) -/

theorem idxHas_true_of_get_some {idx : Index} {k : String} {v : TrainData}
    (h : idxGet idx k = some v) : idxHas idx k = true := by
  rcases Option.map_eq_some'.1 h with ⟨q, hq, rfl⟩
  have hqk := List.find?_some hq
  exact List.any_eq_true.2 ⟨q, List.mem_of_find?_eq_some hq, hqk⟩

theorem idxGet_isSome_of_has {idx : Index} {k : String} (h : idxHas idx k = true) :
    (idxGet idx k).isSome = true := by
  rcases List.any_eq_true.1 h with ⟨p, hp, hpk⟩
  have hs : (idx.find? (fun p => p.1 == k)).isSome := List.find?_isSome.2 ⟨p, hp, hpk⟩
  rcases Option.isSome_iff_exists.1 hs with ⟨q, hq⟩
  rw [idxGet, hq]
  rfl

theorem idxGet_append_single_ne {idx : Index} {k k2 : String} {d : TrainData}
    (h : (k2 == k) = false) : idxGet (idx ++ [(k2, d)]) k = idxGet idx k := by
  rw [idxGet, idxGet, List.find?_append]
  cases hf : idx.find? (fun p => p.1 == k) with
  | some p => rfl
  | none => simp [List.find?_cons, h]

theorem idxGet_append_single_eq {idx : Index} {k : String} {d : TrainData}
    (h : idxGet idx k = none) : idxGet (idx ++ [(k, d)]) k = some d := by
  have hf : idx.find? (fun p => p.1 == k) = none := by
    cases hf : idx.find? (fun p => p.1 == k) with
    | none => rfl
    | some p =>
      rw [idxGet, hf] at h
      cases h
  rw [idxGet, List.find?_append, hf]
  simp [List.find?_cons]

theorem insFold_preserves (keys : List String) (d : TrainData) (acc : Index × Bool)
    (k : String) (v : TrainData) (h : idxGet acc.1 k = some v) :
    idxGet ((keys.foldl
        (fun acc k2 => if idxHas acc.1 k2 then acc else (acc.1 ++ [(k2, d)], true))
        acc).1) k = some v := by
  induction keys generalizing acc with
  | nil => exact h
  | cons k2 keys ih =>
    rw [List.foldl_cons]
    by_cases hh : idxHas acc.1 k2
    · rw [if_pos hh]
      exact ih acc h
    · rw [if_neg hh]
      apply ih
      show idxGet (acc.1 ++ [(k2, d)]) k = some v
      have hne : (k2 == k) = false := by
        cases hbe : k2 == k
        · rfl
        · exact absurd (eq_of_beq hbe ▸ idxHas_true_of_get_some h) hh
      rw [idxGet_append_single_ne hne]
      exact h

theorem insFold_inserts (keys : List String) (d : TrainData) (acc : Index × Bool)
    (k : String) (hmem : k ∈ keys) (hnone : idxGet acc.1 k = none) :
    idxGet ((keys.foldl
        (fun acc k2 => if idxHas acc.1 k2 then acc else (acc.1 ++ [(k2, d)], true))
        acc).1) k = some d := by
  induction keys generalizing acc with
  | nil => cases hmem
  | cons k2 keys ih =>
    rw [List.foldl_cons]
    by_cases he : k2 = k
    · subst he
      have hh : idxHas acc.1 k2 = false := by
        cases hha : idxHas acc.1 k2
        · rfl
        · have := idxGet_isSome_of_has hha
          rw [hnone] at this
          cases this
      rw [if_neg (by simp [hh])]
      exact insFold_preserves keys d _ k2 d (idxGet_append_single_eq hnone)
    · have hmem2 : k ∈ keys := by
        rcases List.mem_cons.1 hmem with h | h
        · exact absurd h.symm he
        · exact h
      by_cases hh : idxHas acc.1 k2
      · rw [if_pos hh]
        exact ih acc hmem2 hnone
      · rw [if_neg hh]
        refine ih _ hmem2 ?_
        show idxGet (acc.1 ++ [(k2, d)]) k = none
        rw [idxGet_append_single_ne (beq_eq_false_iff_ne.2 he)]
        exact hnone

theorem addTrainToIndex_eq_of_valid (idx : Index) (r : RawRecord) (stn : Station)
    (src lineName trainNumber : String)
    (hline : r.lineName = some lineName) (htrip : jsStrTruthy r.tripId = true)
    (hnum : extractTrainNumber (some lineName) = some trainNumber) :
    addTrainToIndex idx r stn src =
      (keysFor trainNumber (extractTrainType (some lineName)) lineName).foldl
        (fun acc k2 => if idxHas acc.1 k2 then acc
          else (acc.1 ++
            [(k2, trainDataOf r stn src lineName trainNumber
                    (extractTrainType (some lineName)))], true))
        (idx, false) := by
  have hne : lineName ≠ "" := by
    intro hs
    rw [hs, extractTrainNumber, if_pos rfl] at hnum
    cases hnum
  have hlt : jsStrTruthy r.lineName = true := by
    rw [hline]
    simpa [jsStrTruthy] using hne
  have hoe : jsOrEmpty r.lineName = lineName := by
    rw [hline]
    rfl
  rw [addTrainToIndex, if_neg (by rw [hlt, htrip]; simp)]
  rw [hoe]
  simp only [hnum]

set_option maxRecDepth 40000 in
/-- C3: during one build pass an entry is inserted only under generated keys
the in-progress index does not already contain, and a key already present
keeps its existing entry untouched (first-seen-per-build wins); consequently
in the index built when Frankfurt reports "ICE 513" (trip "A") before Berlin
reports "ICE 513" (trip "B"), search("513") and search("ICE 513") both
return the Frankfurt-sourced entry. -/
theorem addTrainToIndex_first_seen_wins (idx : Index) (r : RawRecord) (stn : Station)
    (src : String) (k : String) (v : TrainData) :
    (idxGet idx k = some v → idxGet (addTrainToIndex idx r stn src).1 k = some v) ∧
    (∀ lineName trainNumber, r.lineName = some lineName →
      jsStrTruthy r.tripId = true →
      extractTrainNumber (some lineName) = some trainNumber →
      k ∈ keysFor trainNumber (extractTrainType (some lineName)) lineName →
      idxGet idx k = none →
      idxGet (addTrainToIndex idx r stn src).1 k =
        some (trainDataOf r stn src lineName trainNumber (extractTrainType (some lineName)))) ∧
    ((searchLookup (fullIndex twoStationEnv) "513").map (fun d => d.tripId) = some "A" ∧
     (searchLookup (fullIndex twoStationEnv) "ICE 513").map (fun d => d.tripId) = some "A") := by
  refine ⟨?_, ?_, by decide, by decide⟩
  · intro hv
    by_cases hg : (!jsStrTruthy r.lineName || !jsStrTruthy r.tripId) = true
    · rw [addTrainToIndex, if_pos hg]
      exact hv
    · have hlt : jsStrTruthy r.lineName = true := by
        cases h1 : jsStrTruthy r.lineName
        · exact absurd (by rw [h1]; rfl) hg
        · rfl
      have htt : jsStrTruthy r.tripId = true := by
        cases h1 : jsStrTruthy r.tripId
        · exact absurd (by rw [h1]; simp) hg
        · rfl
      have hsome : r.lineName = some (jsOrEmpty r.lineName) := by
        cases hln : r.lineName with
        | none =>
          rw [hln] at hlt
          simp [jsStrTruthy] at hlt
        | some s => rfl
      cases hx : extractTrainNumber (some (jsOrEmpty r.lineName)) with
      | none =>
        rw [addTrainToIndex, if_neg hg]
        simp only [hx]
        exact hv
      | some tn =>
        rw [addTrainToIndex_eq_of_valid idx r stn src _ tn hsome htt hx]
        exact insFold_preserves _ _ _ _ _ hv
  · intro lineName trainNumber hline htrip hnum hmem hnone
    rw [addTrainToIndex_eq_of_valid idx r stn src lineName trainNumber hline htrip hnum]
    exact insFold_inserts _ _ _ _ hmem hnone

/-- C3 witness: adding Berlin's report leaves the Frankfurt entry under
"ICE 513" untouched, and adding Frankfurt's report to the empty index files
the new entry under "513". -/
theorem addTrainToIndex_first_seen_wins_witness :
    idxGet (addTrainToIndex oneKeyIndex berlinReport berlinStation "dep-6h-12h").1 "ICE 513" =
      some oneKeyEntry ∧
    idxGet (addTrainToIndex [] frankfurtReport frankfurtStation "dep-now-6h").1 "513" =
      some (trainDataOf frankfurtReport frankfurtStation "dep-now-6h" "ICE 513" "513"
        (extractTrainType (some "ICE 513"))) := by
  constructor
  · exact (addTrainToIndex_first_seen_wins oneKeyIndex berlinReport berlinStation
      "dep-6h-12h" "ICE 513" oneKeyEntry).1 (by decide)
  · exact (addTrainToIndex_first_seen_wins [] frankfurtReport frankfurtStation
      "dep-now-6h" "513" oneKeyEntry).2.1 "ICE 513" "513" rfl (by decide) (by decide)
      (by decide) rfl

/-! ## Digit-free queries hit the first index entry (C10) -/

theorem containsL_nil_pat (l : List Char) : containsL [] l = true := by
  cases l with
  | nil => rfl
  | cons c cs => rfl

theorem find?_head_of_true {A : Type} (l : List A) (p : A → Bool)
    (h : ∀ a ∈ l, p a = true) : l.find? p = l.head? := by
  cases l with
  | nil => rfl
  | cons a l =>
    rw [List.find?_cons, h a (by simp)]
    rfl

theorem mem_data_jsTrim {s : String} {c : Char} (h : c ∈ (jsTrim s).data) : c ∈ s.data := by
  have h1 : c ∈ (s.data.dropWhile isWsC).reverse.dropWhile isWsC := by
    simpa [jsTrim] using h
  have h2 : c ∈ (s.data.dropWhile isWsC).reverse :=
    (List.dropWhile_sublist isWsC).subset h1
  have h3 : c ∈ s.data.dropWhile isWsC := List.mem_reverse.1 h2
  exact (List.dropWhile_sublist isWsC).subset h3

theorem mem_data_jsUpper {s : String} {c : Char} (h : c ∈ (jsUpper s).data) :
    ∃ c0 ∈ s.data, c = upChar c0 := by
  rcases List.mem_map.1 h with ⟨c0, hc0, rfl⟩
  exact ⟨c0, hc0, rfl⟩

/-- C10: for a query containing no digit the digit-only form of the query is
empty, the fuzzy fallback's contains-test accepts every key, and search
returns the entry filed under the first key in index iteration order
(provided, as the builder guarantees, every index key contains a digit);
not-found is possible only for the empty index. -/
theorem searchLookup_digitless_query (idx : Index) (q : String)
    (hq : ∀ c ∈ q.data, isDigitC c = false)
    (hkeys : ∀ p ∈ idx, ∃ c ∈ p.1.data, isDigitC c = true) :
    searchLookup idx q = idx.head?.map (fun p => p.2) ∧
    (searchLookup idx q = none → idx = []) := by
  have hQ : ∀ c ∈ (jsTrim (jsUpper q)).data, isDigitC c = false := by
    intro c hc
    rcases mem_data_jsUpper (mem_data_jsTrim hc) with ⟨c0, hc0, rfl⟩
    rw [isDigitC_upChar]
    exact hq c0 hc0
  have hkeyne : ∀ p ∈ idx, (p.1 == jsTrim (jsUpper q)) = false := by
    intro p hp
    refine beq_eq_false_iff_ne.2 ?_
    intro he
    rcases hkeys p hp with ⟨c, hc, hcd⟩
    rw [he] at hc
    rw [hQ c hc] at hcd
    cases hcd
  have hget1 : idxGet idx (jsTrim (jsUpper q)) = none := by
    rw [idxGet, List.find?_eq_none.2 (fun p hp he => by
      rw [hkeyne p hp] at he
      cases he)]
    rfl
  have hNS : ∀ c ∈ (stripWs (jsTrim (jsUpper q))).data, isDigitC c = false := by
    intro c hc
    exact hQ c (List.mem_of_mem_filter hc)
  have hget2 : idxGet idx (stripWs (jsTrim (jsUpper q))) = none := by
    rw [idxGet, List.find?_eq_none.2 (fun p hp he => by
      have heq := eq_of_beq he
      rcases hkeys p hp with ⟨c, hc, hcd⟩
      rw [heq] at hc
      rw [hNS c hc] at hcd
      cases hcd)]
    rfl
  have hNum : digitsOnly (jsTrim (jsUpper q)) = "" := by
    show (⟨((jsTrim (jsUpper q)).data).filter isDigitC⟩ : String) = ""
    rw [List.filter_eq_nil_iff.2 (by
      intro c hc
      simp [hQ c hc])]
  have hget3 : idxGet idx (digitsOnly (jsTrim (jsUpper q))) = none := by
    rw [hNum, idxGet, List.find?_eq_none.2 (fun p hp he => by
      have heq := eq_of_beq he
      rcases hkeys p hp with ⟨c, hc, _⟩
      rw [heq] at hc
      rw [show ("" : String).data = [] from rfl] at hc
      cases hc)]
    rfl
  have hmain : searchLookup idx q = idx.head?.map (fun p => p.2) := by
    rw [searchLookup]
    simp only [hget1, hget2, hget3, Option.orElse_none, Option.none_orElse]
    rw [hNum]
    rw [find?_head_of_true idx _ (by
      intro p hp
      show (containsL ("" : String).data p.1.data || p.2.trainNumber == "") = true
      rw [show ("" : String).data = [] from rfl, containsL_nil_pat]
      rfl)]
  refine ⟨hmain, ?_⟩
  intro hnone
  rw [hmain] at hnone
  rcases Option.map_eq_none'.1 hnone with h
  exact List.head?_eq_none_iff.1 h

/-- C10 witness: the digit-free query "ICE" against the one-entry index
returns its first (and only) entry. -/
theorem searchLookup_digitless_query_witness :
    searchLookup oneKeyIndex "ICE" = some oneKeyEntry := by
  have h := searchLookup_digitless_query oneKeyIndex "ICE" (by decide) (by decide)
  rw [h.1]
  rfl

/-! ## Retry policy (C5) -/

/-- C5 counterexample: with every fetch answering a non-transient 404 and
the call-site default of 3 retries, fetchWithRetry of
services/transportApi.ts performs all three fetches before failing — the
thrown "API error" is caught by the loop's own catch and retried, so a
non-transient failure does not propagate on its first occurrence. -/
theorem svcFetchWithRetry_404_retried :
    svcFetchWithRetry env404 3 = (.error "API error: 404", 3) ∧
    (svcFetchWithRetry env404 3).2 ≠ 1 := by
  refine ⟨rfl, ?_⟩
  intro h
  rw [show svcFetchWithRetry env404 3 = (.error "API error: 404", 3) from rfl] at h
  cases h

/-- C5 amended: a successful response returns immediately; a transient
status (503/500/429) with retries remaining is retried by both versions; in
services/transportApi.ts a non-transient response is thrown but the throw is
caught by the same loop and retried like any other failure until the final
attempt, where the error propagates; in api/transport.ts a non-transient
response is returned to the caller immediately without retry; a rejected
fetch is retried by both until the final attempt, where it propagates, and
an exhausted loop propagates "Max retries reached". -/
theorem fetchWithRetry_policy (env : FetchSeq) (i rem : Nat) (r : JsResponse) (e : String) :
    (env i = .ok r → r.ok = true →
      svcFetchRetryGo env i (rem + 1) = (.ok r, 1) ∧
      apiFetchRetryGo env i (rem + 1) = (.ok r, 1)) ∧
    (env i = .ok r → r.ok = false → transientStatus r.status = true → 0 < rem →
      svcFetchRetryGo env i (rem + 1) =
        ((svcFetchRetryGo env (i + 1) rem).1, (svcFetchRetryGo env (i + 1) rem).2 + 1) ∧
      apiFetchRetryGo env i (rem + 1) =
        ((apiFetchRetryGo env (i + 1) rem).1, (apiFetchRetryGo env (i + 1) rem).2 + 1)) ∧
    (env i = .ok r → r.ok = false → transientStatus r.status = false →
      apiFetchRetryGo env i (rem + 1) = (.ok r, 1)) ∧
    (env i = .ok r → r.ok = false → transientStatus r.status = false → 0 < rem →
      svcFetchRetryGo env i (rem + 1) =
        ((svcFetchRetryGo env (i + 1) rem).1, (svcFetchRetryGo env (i + 1) rem).2 + 1)) ∧
    (env i = .ok r → r.ok = false →
      svcFetchRetryGo env i 1 = (.error ("API error: " ++ toString r.status), 1)) ∧
    (env i = .error e →
      svcFetchRetryGo env i 1 = (.error e, 1) ∧ apiFetchRetryGo env i 1 = (.error e, 1)) ∧
    (env i = .error e → 0 < rem →
      svcFetchRetryGo env i (rem + 1) =
        ((svcFetchRetryGo env (i + 1) rem).1, (svcFetchRetryGo env (i + 1) rem).2 + 1) ∧
      apiFetchRetryGo env i (rem + 1) =
        ((apiFetchRetryGo env (i + 1) rem).1, (apiFetchRetryGo env (i + 1) rem).2 + 1)) ∧
    svcFetchRetryGo env i 0 = (.error "Max retries reached", 0) ∧
    apiFetchRetryGo env i 0 = (.error "Max retries reached", 0) := by
  refine ⟨?_, ?_, ?_, ?_, ?_, ?_, ?_, rfl, rfl⟩
  · intro h1 h2
    constructor
    · rw [svcFetchRetryGo, h1]
      simp [h2]
    · rw [apiFetchRetryGo, h1]
      simp [h2]
  · intro h1 h2 h3 h4
    constructor
    · rw [svcFetchRetryGo, h1]
      simp [h2, h3, h4]
    · rw [apiFetchRetryGo, h1]
      simp [h2, h3, h4]
  · intro h1 h2 h3
    rw [apiFetchRetryGo, h1]
    simp [h2, h3]
  · intro h1 h2 h3 h4
    rw [svcFetchRetryGo, h1]
    have h5 : (rem == 0) = false := by
      cases rem
      · omega
      · rfl
    simp [h2, h3, h4, h5]
  · intro h1 h2
    rw [svcFetchRetryGo, h1]
    simp [h2]
  · intro h1
    constructor
    · rw [svcFetchRetryGo, h1]
      simp
    · rw [apiFetchRetryGo, h1]
      simp
  · intro h1 h2
    have h5 : (rem == 0) = false := by
      cases rem
      · omega
      · rfl
    constructor
    · rw [svcFetchRetryGo, h1]
      simp [h5]
    · rw [apiFetchRetryGo, h1]
      simp [h5]

/-- C5 witness: a success returns after one fetch; a non-transient 404 is
returned by the api/transport.ts version after one fetch; a transient 503
with retries remaining recurses into the next attempt. -/
theorem fetchWithRetry_policy_witness :
    svcFetchRetryGo envOk200 0 3 = (.ok ⟨true, 200⟩, 1) ∧
    apiFetchRetryGo env404 0 5 = (.ok ⟨false, 404⟩, 1) ∧
    svcFetchRetryGo env503then200 0 3 =
      ((svcFetchRetryGo env503then200 1 2).1, (svcFetchRetryGo env503then200 1 2).2 + 1) := by
  refine ⟨?_, ?_, ?_⟩
  · exact ((fetchWithRetry_policy envOk200 0 2 ⟨true, 200⟩ "x").1 rfl rfl).1
  · exact (fetchWithRetry_policy env404 0 4 ⟨false, 404⟩ "x").2.2.1 rfl rfl rfl
  · exact ((fetchWithRetry_policy env503then200 0 2 ⟨false, 503⟩ "x").2.1 rfl rfl rfl
      (by omega)).1

/-! ## Cache TTL and eviction (C6) -/

set_option maxRecDepth 100000 in
/-- C6 counterexample: 25 fresh inserts through setCachedSearch starting
from the empty cache leave 25 live entries with the oldest still present —
the capacity pass of services/transportApi.ts removes only expired entries
and never evicts the oldest remaining one, so that cache exceeds its
20-entry threshold and any fixed maximum entry count. -/
theorem setCachedSearch_unbounded :
    svcCacheTest.length = 25 ∧ 20 < svcCacheTest.length ∧
    (svcCacheTest.head?).map (fun p => p.1) = some "0" := by
  have h : svcCacheTest.length = 25 := by decide
  refine ⟨h, by rw [h]; decide, by decide⟩

theorem cacheSet_length_le {A : Type} (c : JsCache A) (k : String) (e : CacheEntry A) :
    (cacheSet c k e).length ≤ c.length + 1 := by
  rw [cacheSet]
  split
  · rw [List.length_map]
    omega
  · rw [List.length_append]
    simp

/-- C6 amended: a cached value is served iff the entry is present and
now − storedAt is within the TTL (both cache layers); an expired or missing
entry makes the handler invoke upstream, a fresh one suppresses the
upstream call; setCache of api/transport.ts never grows the cache beyond
100 entries, and at capacity with no expired entries it evicts exactly the
oldest (first-inserted) entry; setCachedSearch of services/transportApi.ts
(see the counterexample) enforces no such bound. -/
theorem cache_ttl_and_eviction {A : Type} (now : Nat) (cache : JsCache A) (k : String)
    (v u : A) (en : CacheEntry A) :
    ((getFromCache now cache k).1 = some v ↔
      ∃ e2, cacheFind cache k = some e2 ∧ now - e2.timestamp ≤ CACHE_TTL_MS ∧ e2.data = v) ∧
    ((getCachedSearch now cache k).1 = some v ↔
      ∃ e2, cacheFind cache k = some e2 ∧ now - e2.timestamp ≤ SEARCH_CACHE_TTL ∧ e2.data = v) ∧
    (cacheFind cache k = some en → CACHE_TTL_MS < now - en.timestamp →
      cachedAction now cache k u = (u, setCache now (cacheDelete cache k) k u, true)) ∧
    (cacheFind cache k = some en → now - en.timestamp ≤ CACHE_TTL_MS →
      cachedAction now cache k u = (en.data, cache, false)) ∧
    (cacheFind cache k = none →
      cachedAction now cache k u = (u, setCache now cache k u, true)) ∧
    (cache.length ≤ MAX_CACHE_SIZE → (setCache now cache k v).length ≤ MAX_CACHE_SIZE) ∧
    ((∀ p ∈ cache, now - p.2.timestamp ≤ CACHE_TTL_MS) → cache.length = MAX_CACHE_SIZE →
      setCache now cache k v = cacheSet (cache.drop 1) k ⟨v, now⟩) := by
  refine ⟨?_, ?_, ?_, ?_, ?_, ?_, ?_⟩
  · cases hf : cacheFind cache k with
    | none =>
      simp only [getFromCache, hf]
      simp
    | some e2 =>
      simp only [getFromCache, hf]
      split
      · next hexp =>
        simp only [Option.some.injEq]
        constructor
        · intro hv
          cases hv
        · rintro ⟨e3, he3, hle, -⟩
          subst he3
          exact absurd hle (by omega)
      · next hexp =>
        simp only [Option.some.injEq]
        constructor
        · intro hv
          exact ⟨e2, rfl, by omega, hv⟩
        · rintro ⟨e3, he3, -, hd⟩
          subst he3
          exact hd
  · cases hf : cacheFind cache k with
    | none =>
      simp only [getCachedSearch, hf]
      simp
    | some e2 =>
      simp only [getCachedSearch, hf]
      split
      · next hexp =>
        simp only [Option.some.injEq]
        constructor
        · intro hv
          cases hv
        · rintro ⟨e3, he3, hle, -⟩
          subst he3
          exact absurd hle (by omega)
      · next hexp =>
        simp only [Option.some.injEq]
        constructor
        · intro hv
          exact ⟨e2, rfl, by omega, hv⟩
        · rintro ⟨e3, he3, -, hd⟩
          subst he3
          exact hd
  · intro hf hexp
    have hg : getFromCache now cache k = (none, cacheDelete cache k) := by
      simp only [getFromCache, hf]
      rw [if_pos hexp]
    simp only [cachedAction, hg]
  · intro hf hfresh
    have hg : getFromCache now cache k = (some en.data, cache) := by
      simp only [getFromCache, hf]
      rw [if_neg (by omega)]
    simp only [cachedAction, hg]
  · intro hf
    have hg : getFromCache now cache k = (none, cache) := by
      simp only [getFromCache, hf]
    simp only [cachedAction, hg]
  · intro hlen
    rw [setCache]
    by_cases h1 : MAX_CACHE_SIZE ≤ cache.length
    · rw [if_pos h1]
      have hc2 : (cache.filter
          (fun p => !(CACHE_TTL_MS < now - p.2.timestamp : Bool))).length ≤ cache.length :=
        List.length_filter_le _ _
      by_cases h2 : MAX_CACHE_SIZE ≤ (cache.filter
          (fun p => !(CACHE_TTL_MS < now - p.2.timestamp : Bool))).length
      · rw [if_pos h2]
        have := cacheSet_length_le ((cache.filter
          (fun p => !(CACHE_TTL_MS < now - p.2.timestamp : Bool))).drop 1) k ⟨v, now⟩
        rw [List.length_drop] at this
        have hm : (0 : Nat) < MAX_CACHE_SIZE := by decide
        omega
      · rw [if_neg h2]
        have := cacheSet_length_le (cache.filter
          (fun p => !(CACHE_TTL_MS < now - p.2.timestamp : Bool))) k ⟨v, now⟩
        omega
    · rw [if_neg h1]
      have := cacheSet_length_le cache k ⟨v, now⟩
      omega
  · intro hfresh hlen
    rw [setCache]
    have hfs : cache.filter (fun p => !(CACHE_TTL_MS < now - p.2.timestamp : Bool)) = cache := by
      apply List.filter_eq_self.2
      intro p hp
      have := hfresh p hp
      simp only [Bool.not_eq_true']
      simp only [decide_eq_false_iff_not]
      omega
    rw [if_pos (by omega), hfs, if_pos (by omega)]

/-- C6 witness: a fresh entry is served from cache, an expired entry makes
the handler call upstream and re-store, and a bounded insert stays within
the 100-entry cap. -/
theorem cache_ttl_and_eviction_witness :
    (getFromCache 0 [("a", (⟨5, 0⟩ : CacheEntry Nat))] "a").1 = some 5 ∧
    cachedAction 600001 [("a", (⟨5, 0⟩ : CacheEntry Nat))] "a" 7 =
      (7, setCache 600001 (cacheDelete [("a", (⟨5, 0⟩ : CacheEntry Nat))] "a") "a" 7, true) ∧
    (setCache 0 [("a", (⟨5, 0⟩ : CacheEntry Nat))] "a" 9).length ≤ MAX_CACHE_SIZE := by
  refine ⟨?_, ?_, ?_⟩
  · exact (cache_ttl_and_eviction 0 [("a", (⟨5, 0⟩ : CacheEntry Nat))] "a" 5 7 ⟨5, 0⟩).1.mpr
      ⟨⟨5, 0⟩, rfl, by decide, rfl⟩
  · exact (cache_ttl_and_eviction 600001 [("a", (⟨5, 0⟩ : CacheEntry Nat))] "a" 5 7
      ⟨5, 0⟩).2.2.1 rfl (by decide)
  · exact (cache_ttl_and_eviction 0 [("a", (⟨5, 0⟩ : CacheEntry Nat))] "a" 9 7
      ⟨5, 0⟩).2.2.2.2.2.1 (by decide)

/-! ## Staged fallback search (C4) -/

set_option maxRecDepth 40000 in
/-- C4 counterexample: for the purely numeric query "513" against an
environment where a train labelled "ICE513" departs Frankfurt (so only the
prefix-prepended query "ICE 513" matches the station fast path) and
journeys/trainsearch yield nothing, the source's third stage — the
trainsearch fallback — returns nothing and the search comes back empty,
while the numeric-prefix station retry described by the claim would find
the train: the third stage is not a prefix-prepended station retry. -/
theorem searchTrainByNumber_no_prefix_stage :
    (searchTrainByNumber prefixCeEnv [] "513").1 = [] ∧
    searchViaTrainsearch prefixCeEnv "513" = [] ∧
    specNumericRetryStage prefixCeEnv "513" ≠ [] := by
  refine ⟨by decide, by decide, ?_⟩
  have h : (specNumericRetryStage prefixCeEnv "513").length = 1 := by decide
  intro he
  rw [he] at h
  cases h

/-- C4 amended: on a cache miss with a non-empty cleaned query,
searchTrainByNumber runs its stages in order — major-station departures
fast path, then known long-distance routes via journeys, then the DB
trainsearch scraper fallback called with the original cleaned query
(attempted for any query, numeric or not); the first stage producing a
result short-circuits and caches, and only when the first two stages are
empty is the result that of the trainsearch stage. -/
theorem searchTrainByNumber_staged (env : ClientEnv) (cache : JsCache (List TrainJourney))
    (q : String)
    (hne : (jsUpper (jsTrim q) == "") = false)
    (hmiss : (getCachedSearch env.nowMs cache (jsUpper (jsTrim q))).1 = none) :
    (searchViaStations env (jsUpper (jsTrim q)) ≠ [] →
      searchTrainByNumber env cache q =
        (searchViaStations env (jsUpper (jsTrim q)),
         setCachedSearch env.nowMs (getCachedSearch env.nowMs cache (jsUpper (jsTrim q))).2
           (jsUpper (jsTrim q)) (searchViaStations env (jsUpper (jsTrim q))))) ∧
    (searchViaStations env (jsUpper (jsTrim q)) = [] →
     searchViaJourneys env (jsUpper (jsTrim q)) ≠ [] →
      searchTrainByNumber env cache q =
        (searchViaJourneys env (jsUpper (jsTrim q)),
         setCachedSearch env.nowMs (getCachedSearch env.nowMs cache (jsUpper (jsTrim q))).2
           (jsUpper (jsTrim q)) (searchViaJourneys env (jsUpper (jsTrim q))))) ∧
    (searchViaStations env (jsUpper (jsTrim q)) = [] →
     searchViaJourneys env (jsUpper (jsTrim q)) = [] →
      (searchTrainByNumber env cache q).1 = searchViaTrainsearch env (jsUpper (jsTrim q))) := by
  rcases hg : getCachedSearch env.nowMs cache (jsUpper (jsTrim q)) with ⟨o, c1⟩
  have ho : o = none := by
    rw [hg] at hmiss
    exact hmiss
  subst ho
  refine ⟨?_, ?_, ?_⟩
  · intro h1
    rw [searchTrainByNumber, if_neg (by rw [hne]; exact Bool.false_ne_true)]
    simp only [hg]
    rw [if_pos (List.length_pos.2 h1)]
  · intro h1 h2
    rw [searchTrainByNumber, if_neg (by rw [hne]; exact Bool.false_ne_true)]
    simp only [hg]
    rw [if_neg (by rw [h1]; simp), if_pos (List.length_pos.2 h2)]
  · intro h1 h2
    rw [searchTrainByNumber, if_neg (by rw [hne]; exact Bool.false_ne_true)]
    simp only [hg]
    rw [if_neg (by rw [h1]; simp), if_neg (by rw [h2]; simp)]
    by_cases h3 : 0 < (searchViaTrainsearch env (jsUpper (jsTrim q))).length
    · rw [if_pos h3]
    · rw [if_neg h3]
      have : searchViaTrainsearch env (jsUpper (jsTrim q)) = [] := by
        cases hs : searchViaTrainsearch env (jsUpper (jsTrim q)) with
        | nil => rfl
        | cons a l =>
          rw [hs] at h3
          exact absurd (by simp) h3
      rw [this]

set_option maxRecDepth 40000 in
/-- C4 witness: for the query "ICE 513" against the scenario environment the
station fast path succeeds and short-circuits the remaining stages. -/
theorem searchTrainByNumber_staged_witness :
    searchTrainByNumber prefixCeEnv [] "ICE 513" =
      (searchViaStations prefixCeEnv (jsUpper (jsTrim "ICE 513")),
       setCachedSearch prefixCeEnv.nowMs
         (getCachedSearch prefixCeEnv.nowMs [] (jsUpper (jsTrim "ICE 513"))).2
         (jsUpper (jsTrim "ICE 513"))
         (searchViaStations prefixCeEnv (jsUpper (jsTrim "ICE 513")))) := by
  have h := searchTrainByNumber_staged prefixCeEnv [] "ICE 513" (by decide) (by decide)
  exact h.1 (by decide)

/-! ## Autocomplete ranking (C7) -/

theorem char_toNat_inj {c d : Char} (h : c.toNat = d.toNat) : c = d := by
  apply Char.eq_of_val_eq
  apply UInt32.eq_of_toBitVec_eq
  apply BitVec.eq_of_toNat_eq
  exact h

theorem charListLt_irrefl (l : List Char) : charListLt l l = false := by
  induction l with
  | nil => rfl
  | cons a as ih =>
    rw [charListLt]
    simp [ih]

theorem charListLt_trans {a b c : List Char} (h1 : charListLt a b = true)
    (h2 : charListLt b c = true) : charListLt a c = true := by
  induction a generalizing b c with
  | nil =>
    cases b with
    | nil => cases h1
    | cons y ys =>
      cases c with
      | nil => cases h2
      | cons z zs => rfl
  | cons x xs ih =>
    cases b with
    | nil => cases h1
    | cons y ys =>
      cases c with
      | nil => cases h2
      | cons z zs =>
        rw [charListLt] at h1 h2 ⊢
        simp only [Bool.or_eq_true, Bool.and_eq_true, decide_eq_true_eq, beq_iff_eq] at h1 h2 ⊢
        rcases h1 with h1 | ⟨hxy, h1⟩
        · rcases h2 with h2 | ⟨hyz, h2⟩
          · exact Or.inl (by omega)
          · subst hyz
            exact Or.inl h1
        · subst hxy
          rcases h2 with h2 | ⟨hyz, h2⟩
          · exact Or.inl h2
          · subst hyz
            exact Or.inr ⟨rfl, ih h1 h2⟩

theorem charListLt_connex {a b : List Char} (hne : a ≠ b) :
    charListLt a b = true ∨ charListLt b a = true := by
  induction a generalizing b with
  | nil =>
    cases b with
    | nil => exact absurd rfl hne
    | cons y ys => exact Or.inl rfl
  | cons x xs ih =>
    cases b with
    | nil => exact Or.inr rfl
    | cons y ys =>
      by_cases hxy : x = y
      · subst hxy
        have hne2 : xs ≠ ys := fun h => hne (by rw [h])
        rcases ih hne2 with h | h
        · left
          rw [charListLt]
          simp [h]
        · right
          rw [charListLt]
          simp [h]
      · have hnn : x.toNat ≠ y.toNat := fun h => hxy (char_toNat_inj h)
        rcases Nat.lt_or_ge x.toNat y.toNat with h | h
        · left
          rw [charListLt]
          simp [h]
        · right
          rw [charListLt]
          have : y.toNat < x.toNat := by omega
          simp [this]

theorem charListLt_asymm {a b : List Char} (h1 : charListLt a b = true) :
    charListLt b a = false := by
  cases h2 : charListLt b a
  · rfl
  · have h3 := charListLt_trans h1 h2
    rw [charListLt_irrefl] at h3
    cases h3

theorem autoLe_exact {qn : String} {a b : AutoCandidate} (ha : a.trainNumber = qn) :
    autoLe qn a b = true := by
  rw [autoLe, if_pos (by simp [ha])]

theorem autoLe_right_exact {qn : String} {a b : AutoCandidate}
    (ha : a.trainNumber ≠ qn) (hb : b.trainNumber = qn) : autoLe qn a b = false := by
  rw [autoLe, if_neg (by simp [ha]), if_pos (by simp [hb])]

theorem autoLe_eq_lex {qn : String} {a b : AutoCandidate}
    (ha : a.trainNumber ≠ qn) (hb : b.trainNumber ≠ qn)
    (hl : a.trainNumber.length = b.trainNumber.length) :
    autoLe qn a b = !(charListLt b.trainNumber.data a.trainNumber.data) := by
  rw [autoLe, if_neg (by simp [ha]), if_neg (by simp [hb]), if_neg (by simp [hl])]

theorem autoLe_eq_len {qn : String} {a b : AutoCandidate}
    (ha : a.trainNumber ≠ qn) (hb : b.trainNumber ≠ qn)
    (hl : a.trainNumber.length ≠ b.trainNumber.length) :
    autoLe qn a b = decide (a.trainNumber.length < b.trainNumber.length) := by
  rw [autoLe, if_neg (by simp [ha]), if_neg (by simp [hb]), if_pos (by simp [hl])]

theorem autoLe_total (qn : String) (a b : AutoCandidate) :
    autoLe qn a b = true ∨ autoLe qn b a = true := by
  by_cases ha : a.trainNumber = qn
  · exact Or.inl (autoLe_exact ha)
  · by_cases hb : b.trainNumber = qn
    · exact Or.inr (autoLe_exact hb)
    · by_cases hl : a.trainNumber.length = b.trainNumber.length
      · rw [autoLe_eq_lex ha hb hl, autoLe_eq_lex hb ha hl.symm]
        by_cases heq : a.trainNumber.data = b.trainNumber.data
        · left
          rw [heq, charListLt_irrefl]
          rfl
        · rcases charListLt_connex heq with h | h
          · left
            rw [charListLt_asymm h]
            rfl
          · right
            rw [charListLt_asymm h]
            rfl
      · rw [autoLe_eq_len ha hb hl, autoLe_eq_len hb ha (fun h => hl h.symm)]
        rcases Nat.lt_or_ge a.trainNumber.length b.trainNumber.length with h | h
        · left
          simp [h]
        · right
          have h2 : b.trainNumber.length < a.trainNumber.length := by omega
          simp [h2]

theorem autoLe_trans (qn : String) (a b c : AutoCandidate)
    (h1 : autoLe qn a b = true) (h2 : autoLe qn b c = true) : autoLe qn a c = true := by
  by_cases ha : a.trainNumber = qn
  · exact autoLe_exact ha
  · by_cases hb : b.trainNumber = qn
    · rw [autoLe_right_exact ha hb] at h1
      cases h1
    · by_cases hc : c.trainNumber = qn
      · rw [autoLe_right_exact hb hc] at h2
        cases h2
      · by_cases hab : a.trainNumber.length = b.trainNumber.length
        · by_cases hbc : b.trainNumber.length = c.trainNumber.length
          · rw [autoLe_eq_lex ha hb hab] at h1
            rw [autoLe_eq_lex hb hc hbc] at h2
            rw [autoLe_eq_lex ha hc (hab.trans hbc)]
            have hba : charListLt b.trainNumber.data a.trainNumber.data = false := by
              cases hx : charListLt b.trainNumber.data a.trainNumber.data
              · rfl
              · rw [hx] at h1
                cases h1
            have hcb : charListLt c.trainNumber.data b.trainNumber.data = false := by
              cases hx : charListLt c.trainNumber.data b.trainNumber.data
              · rfl
              · rw [hx] at h2
                cases h2
            have hca : charListLt c.trainNumber.data a.trainNumber.data = false := by
              cases hx : charListLt c.trainNumber.data a.trainNumber.data
              · rfl
              · exfalso
                by_cases hcbq : c.trainNumber.data = b.trainNumber.data
                · rw [← hcbq] at hba
                  rw [hba] at hx
                  cases hx
                · rcases charListLt_connex hcbq with hy | hy
                  · rw [hcb] at hy
                    cases hy
                  · have hz := charListLt_trans hy hx
                    rw [hba] at hz
                    cases hz
            rw [hca]
            rfl
          · rw [autoLe_eq_len hb hc hbc] at h2
            simp only [decide_eq_true_eq] at h2
            rw [autoLe_eq_len ha hc (by omega)]
            simp only [decide_eq_true_eq]
            omega
        · rw [autoLe_eq_len ha hb hab] at h1
          simp only [decide_eq_true_eq] at h1
          by_cases hbc : b.trainNumber.length = c.trainNumber.length
          · rw [autoLe_eq_len ha hc (by omega)]
            simp only [decide_eq_true_eq]
            omega
          · rw [autoLe_eq_len hb hc hbc] at h2
            simp only [decide_eq_true_eq] at h2
            rw [autoLe_eq_len ha hc (by omega)]
            simp only [decide_eq_true_eq]
            omega

theorem mem_insertBy {A : Type} (le : A → A → Bool) (x : A) (l : List A) (z : A)
    (h : z ∈ insertBy le x l) : z = x ∨ z ∈ l := by
  induction l with
  | nil => simpa [insertBy] using h
  | cons y ys ih =>
    rw [insertBy] at h
    split at h
    · rcases List.mem_cons.1 h with rfl | h2
      · exact Or.inl rfl
      · exact Or.inr h2
    · rcases List.mem_cons.1 h with rfl | h2
      · exact Or.inr (by simp)
      · rcases ih h2 with h3 | h3
        · exact Or.inl h3
        · exact Or.inr (by simp [h3])

theorem insertBy_perm {A : Type} (le : A → A → Bool) (x : A) (l : List A) :
    List.Perm (insertBy le x l) (x :: l) := by
  induction l with
  | nil => exact List.Perm.refl _
  | cons y ys ih =>
    rw [insertBy]
    split
    · exact List.Perm.refl _
    · exact (List.Perm.cons y ih).trans (List.Perm.swap x y ys)

theorem insertionSortBy_perm {A : Type} (le : A → A → Bool) (l : List A) :
    List.Perm (insertionSortBy le l) l := by
  induction l with
  | nil => exact List.Perm.refl _
  | cons x xs ih =>
    rw [insertionSortBy]
    exact (insertBy_perm le x (insertionSortBy le xs)).trans (List.Perm.cons x ih)

theorem pairwise_insertBy {A : Type} (le : A → A → Bool)
    (htot : ∀ a b, le a b = true ∨ le b a = true)
    (htrans : ∀ a b c, le a b = true → le b c = true → le a c = true)
    (x : A) (l : List A) (hl : l.Pairwise (fun a b => le a b = true)) :
    (insertBy le x l).Pairwise (fun a b => le a b = true) := by
  induction l with
  | nil => simp [insertBy]
  | cons y ys ih =>
    rw [insertBy]
    rcases List.pairwise_cons.1 hl with ⟨hy, hys⟩
    split
    · next hxy =>
      refine List.pairwise_cons.2 ⟨?_, hl⟩
      intro z hz
      rcases List.mem_cons.1 hz with rfl | hz2
      · exact hxy
      · exact htrans x y z hxy (hy z hz2)
    · next hxy =>
      have hyx : le y x = true := by
        rcases htot x y with h | h
        · exact absurd h hxy
        · exact h
      refine List.pairwise_cons.2 ⟨?_, ih hys⟩
      intro z hz
      rcases mem_insertBy le x ys z hz with rfl | hz2
      · exact hyx
      · exact hy z hz2

theorem pairwise_insertionSortBy {A : Type} (le : A → A → Bool)
    (htot : ∀ a b, le a b = true ∨ le b a = true)
    (htrans : ∀ a b c, le a b = true → le b c = true → le a c = true)
    (l : List A) : (insertionSortBy le l).Pairwise (fun a b => le a b = true) := by
  induction l with
  | nil => simp [insertionSortBy]
  | cons x xs ih =>
    rw [insertionSortBy]
    exact pairwise_insertBy le htot htrans x _ ih

theorem autoStep_skips {query qn : String} {m : List (String × AutoCandidate)}
    {p : String × TrainData} (h : allDigits p.1.data = false) :
    autoStep query qn m p = m := by
  rw [autoStep, if_pos (by simp [h])]

theorem foldl_autoStep_filter (query qn : String) (idx : Index)
    (m : List (String × AutoCandidate)) :
    idx.foldl (autoStep query qn) m =
      (idx.filter (fun p => allDigits p.1.data)).foldl (autoStep query qn) m := by
  induction idx generalizing m with
  | nil => rfl
  | cons p ps ih =>
    by_cases hd : allDigits p.1.data
    · rw [List.filter_cons, if_pos (by simp [hd]), List.foldl_cons, List.foldl_cons]
      exact ih _
    · rw [List.filter_cons, if_neg (by simp [hd]), List.foldl_cons,
        autoStep_skips (by simpa using hd)]
      exact ih m

theorem foldl_autoStep_inv (query qn : String) (idx : Index)
    (m : List (String × AutoCandidate))
    (h1 : m.Pairwise (fun a b => a.1 ≠ b.1))
    (h2 : ∀ p ∈ m, p.1 = p.2.trainNumber) :
    (idx.foldl (autoStep query qn) m).Pairwise (fun a b => a.1 ≠ b.1) ∧
    (∀ p ∈ idx.foldl (autoStep query qn) m, p.1 = p.2.trainNumber) := by
  induction idx generalizing m with
  | nil => exact ⟨h1, h2⟩
  | cons p ps ih =>
    rw [List.foldl_cons]
    apply ih
    · rw [autoStep]
      split
      · exact h1
      · split
        · next hcond =>
          have hnotin : ∀ q ∈ m, q.1 ≠ p.2.trainNumber := by
            intro q hq
            simp only [Bool.and_eq_true] at hcond
            have hany := hcond.2
            rw [Bool.not_eq_true'] at hany
            have hx := List.any_eq_false.1 hany q hq
            exact beq_eq_false_iff_ne.1 (by simpa using hx)
          refine List.pairwise_append.2 ⟨h1, List.pairwise_singleton _ _, ?_⟩
          intro a ha b hb
          rcases List.mem_singleton.1 hb with rfl
          exact hnotin a ha
        · exact h1
    · rw [autoStep]
      split
      · exact h2
      · split
        · intro q hq
          rcases List.mem_append.1 hq with hq2 | hq2
          · exact h2 q hq2
          · rcases List.mem_singleton.1 hq2 with rfl
            rfl
        · exact h2

/-- C7: autocomplete considers only purely numeric index keys (the result is
unchanged when all other keys are dropped), returns at most 10 candidates,
deduplicates by trainNumber before sorting, and orders its output by the
comparator relation: an exact trainNumber match first, then ascending
trainNumber length, then lexicographically. -/
theorem autocomplete_ranking (idx : Index) (q : String) :
    autocomplete idx q = autocomplete (idx.filter (fun p => allDigits p.1.data)) q ∧
    (autocomplete idx q).length ≤ 10 ∧
    (autocomplete idx q).Pairwise (fun a b => a.trainNumber ≠ b.trainNumber) ∧
    (autocomplete idx q).Pairwise
      (fun a b => autoLe (digitsOnly (jsTrim (jsUpper q))) a b = true) := by
  refine ⟨?_, ?_, ?_, ?_⟩
  · simp only [autocomplete]
    by_cases hq : (q == "") = true
    · rw [if_pos hq, if_pos hq]
    · rw [if_neg hq, if_neg hq]
      simp only [autoCollect]
      rw [foldl_autoStep_filter]
  · simp only [autocomplete]
    by_cases hq : (q == "") = true
    · rw [if_pos hq]
      simp
    · rw [if_neg hq]
      rw [List.length_take]
      omega
  · simp only [autocomplete]
    by_cases hq : (q == "") = true
    · rw [if_pos hq]
      simp
    · rw [if_neg hq]
      have hinv := foldl_autoStep_inv (jsTrim (jsUpper q)) (digitsOnly (jsTrim (jsUpper q)))
        idx [] (by simp) (by simp)
      have hmap : ((autoCollect (jsTrim (jsUpper q)) (digitsOnly (jsTrim (jsUpper q))) idx).map
          (fun p => p.2)).Pairwise (fun a b => a.trainNumber ≠ b.trainNumber) := by
        rw [List.pairwise_map]
        refine List.Pairwise.imp_of_mem ?_ hinv.1
        intro a b hma hmb hne he
        apply hne
        rw [hinv.2 a hma, hinv.2 b hmb, he]
      have hperm := insertionSortBy_perm (autoLe (digitsOnly (jsTrim (jsUpper q))))
        ((autoCollect (jsTrim (jsUpper q)) (digitsOnly (jsTrim (jsUpper q))) idx).map
          (fun p => p.2))
      have hsorted := (List.Perm.pairwise_iff (fun h he => h he.symm) hperm).2 hmap
      exact List.Pairwise.sublist (List.take_sublist _ _) hsorted
  · simp only [autocomplete]
    by_cases hq : (q == "") = true
    · rw [if_pos hq]
      simp
    · rw [if_neg hq]
      refine List.Pairwise.sublist (List.take_sublist _ _) ?_
      exact pairwise_insertionSortBy _ (autoLe_total _) (autoLe_trans _) _

end Bahn
